import Mathlib

/-!
Verification development for the `dxl2` Dynamixel driver library.

Bytes are modelled as natural numbers (`Nat`), byte strings as `List Nat`.
Every definition is a direct functional translation of the corresponding
Python function in `src/dxl2/`; imperative loops over the serial port become
pure functions over the list of bytes available on the wire, with the bytes
remaining after a read returned explicitly.  Python exceptions are modelled
with `Except`.
-/

/-! ## Byte codec (src/dxl2/protocol_v1.py, protocol_v2.py, v1.py, v2.py) -/

/-- Translation of `split_bytes(data, n_bytes)` (little-endian serialization,
`data.to_bytes(n_bytes, byteorder="little")`). -/
def split_bytes (data : Nat) (n_bytes : Nat := 2) : List Nat :=
  (List.range n_bytes).map (fun i => data / 256 ^ i % 256)

/-- Translation of `merge_bytes` from protocol_v2.py / v2.py
(`int.from_bytes(array, byteorder="little")`). -/
def merge_bytes_le : List Nat → Nat
  | [] => 0
  | b :: t => b + 256 * merge_bytes_le t

/-- Translation of `merge_bytes` from protocol_v1.py / v1.py
(`int.from_bytes(array, byteorder="big")`). -/
def merge_bytes_be (array : List Nat) : Nat :=
  array.foldl (fun acc b => 256 * acc + b) 0

/-- Translation of `calc_checksum(packet)` from protocol_v1.py / v1.py:
`~(sum(packet[2:]) & 0xFF) & 0xFF`.  On a value already masked to one byte,
Python's `~x & 0xFF` equals `255 - x`. -/
def calc_checksum (packet : List Nat) : Nat :=
  0xFF - (packet.drop 2).sum % 256

/-- The 256-entry CRC table embedded in `calc_crc_16`
(protocol_v2.py lines 45-78 and v2.py lines 45-78). -/
def crc_table : List Nat := [
  0x0000, 0x8005, 0x800F, 0x000A, 0x801B, 0x001E, 0x0014, 0x8011,
  0x8033, 0x0036, 0x003C, 0x8039, 0x0028, 0x802D, 0x8027, 0x0022,
  0x8063, 0x0066, 0x006C, 0x8069, 0x0078, 0x807D, 0x8077, 0x0072,
  0x0050, 0x8055, 0x805F, 0x005A, 0x804B, 0x004E, 0x0044, 0x8041,
  0x80C3, 0x00C6, 0x00CC, 0x80C9, 0x00D8, 0x80DD, 0x80D7, 0x00D2,
  0x00F0, 0x80F5, 0x80FF, 0x00FA, 0x80EB, 0x00EE, 0x00E4, 0x80E1,
  0x00A0, 0x80A5, 0x80AF, 0x00AA, 0x80BB, 0x00BE, 0x00B4, 0x80B1,
  0x8093, 0x0096, 0x009C, 0x8099, 0x0088, 0x808D, 0x8087, 0x0082,
  0x8183, 0x0186, 0x018C, 0x8189, 0x0198, 0x819D, 0x8197, 0x0192,
  0x01B0, 0x81B5, 0x81BF, 0x01BA, 0x81AB, 0x01AE, 0x01A4, 0x81A1,
  0x01E0, 0x81E5, 0x81EF, 0x01EA, 0x81FB, 0x01FE, 0x01F4, 0x81F1,
  0x81D3, 0x01D6, 0x01DC, 0x81D9, 0x01C8, 0x81CD, 0x81C7, 0x01C2,
  0x0140, 0x8145, 0x814F, 0x014A, 0x815B, 0x015E, 0x0154, 0x8151,
  0x8173, 0x0176, 0x017C, 0x8179, 0x0168, 0x816D, 0x8167, 0x0162,
  0x8123, 0x0126, 0x012C, 0x8129, 0x0138, 0x813D, 0x8137, 0x0132,
  0x0110, 0x8115, 0x811F, 0x011A, 0x810B, 0x010E, 0x0104, 0x8101,
  0x8303, 0x0306, 0x030C, 0x8309, 0x0318, 0x831D, 0x8317, 0x0312,
  0x0330, 0x8335, 0x833F, 0x033A, 0x832B, 0x032E, 0x0324, 0x8321,
  0x0360, 0x8365, 0x836F, 0x036A, 0x837B, 0x037E, 0x0374, 0x8371,
  0x8353, 0x0356, 0x035C, 0x8359, 0x0348, 0x834D, 0x8347, 0x0342,
  0x03C0, 0x83C5, 0x83CF, 0x03CA, 0x83DB, 0x03DE, 0x03D4, 0x83D1,
  0x83F3, 0x03F6, 0x03FC, 0x83F9, 0x03E8, 0x83ED, 0x83E7, 0x03E2,
  0x83A3, 0x03A6, 0x03AC, 0x83A9, 0x03B8, 0x83BD, 0x83B7, 0x03B2,
  0x0390, 0x8395, 0x839F, 0x039A, 0x838B, 0x038E, 0x0384, 0x8381,
  0x0280, 0x8285, 0x828F, 0x028A, 0x829B, 0x029E, 0x0294, 0x8291,
  0x82B3, 0x02B6, 0x02BC, 0x82B9, 0x02A8, 0x82AD, 0x82A7, 0x02A2,
  0x82E3, 0x02E6, 0x02EC, 0x82E9, 0x02F8, 0x82FD, 0x82F7, 0x02F2,
  0x02D0, 0x82D5, 0x82DF, 0x02DA, 0x82CB, 0x02CE, 0x02C4, 0x82C1,
  0x8243, 0x0246, 0x024C, 0x8249, 0x0258, 0x825D, 0x8257, 0x0252,
  0x0270, 0x8275, 0x827F, 0x027A, 0x826B, 0x026E, 0x0264, 0x8261,
  0x0220, 0x8225, 0x822F, 0x022A, 0x823B, 0x023E, 0x0234, 0x8231,
  0x8213, 0x0216, 0x021C, 0x8219, 0x0208, 0x820D, 0x8207, 0x0202]

/-- One iteration of the loop in `calc_crc_16`:
`i = ((crc >> 8) ^ byte) & 0xFF; crc = ((crc << 8) ^ crc_table[i]) & 0xFFFF`. -/
def crc_step (crc byte : Nat) : Nat :=
  ((crc <<< 8) ^^^ crc_table.getD (((crc >>> 8) ^^^ byte) &&& 0xFF) 0) &&& 0xFFFF

/-- Translation of `calc_crc_16(packet)` (protocol_v2.py lines 44-86,
identical copy in v2.py lines 44-86). -/
def calc_crc_16 (packet : List Nat) : Nat :=
  packet.foldl crc_step 0

/-! ## Stuffing codec (v2 only)

`InstructionPacketV2.add_stuffing` (protocol_v2.py lines 125-139) computes the
indices of every window `[FF, FF, FD]` in the params first and then inserts an
extra `0xFD` after each, walking the index list in reverse.
`StatusPacketV2.remove_stuffing` (protocol_v2.py lines 183-199) does the same
with windows `[FF, FF, FD, FD]` and `list.pop`.  The same index-then-edit code
appears in v2.py (`add_stuffing` lines 134-143, `remove_stuffing` 217-230). -/

/-- Indices `i + 3` for every `i` with `params[i : i+3] == [0xFF, 0xFF, 0xFD]`
(protocol_v2.py lines 129-133). -/
def stuffIndices (p : List Nat) : List Nat :=
  ((List.range (p.length - 2)).filter
    (fun i => decide ((p.drop i).take 3 = [0xFF, 0xFF, 0xFD]))).map (· + 3)

/-- Translation of `add_stuffing`: insert `0xFD` at each computed index,
walking the indices in reverse (protocol_v2.py lines 135-136). -/
def add_stuffing (p : List Nat) : List Nat :=
  (stuffIndices p).reverse.foldl (fun acc i => acc.insertIdx i 0xFD) p

/-- Indices `i + 3` for every `i` with
`params[i : i+4] == [0xFF, 0xFF, 0xFD, 0xFD]` (protocol_v2.py lines 188-192). -/
def unstuffIndices (p : List Nat) : List Nat :=
  ((List.range (p.length - 3)).filter
    (fun i => decide ((p.drop i).take 4 = [0xFF, 0xFF, 0xFD, 0xFD]))).map (· + 3)

/-- Translation of `remove_stuffing`: pop the byte at each computed index,
walking the indices in reverse (protocol_v2.py lines 194-195). -/
def remove_stuffing (p : List Nat) : List Nat :=
  (unstuffIndices p).reverse.foldl (fun acc i => acc.eraseIdx i) p

/-- Recursive reformulation of `add_stuffing`, used for induction;
`add_stuffing_eq_stuffR` below proves it equal to the translation. -/
def stuffR : List Nat → List Nat
  | [] => []
  | [a] => [a]
  | [a, b] => [a, b]
  | a :: b :: c :: t =>
    if a = 0xFF ∧ b = 0xFF ∧ c = 0xFD then
      0xFF :: 0xFF :: 0xFD :: 0xFD :: stuffR t
    else a :: stuffR (b :: c :: t)

/-- Recursive reformulation of `remove_stuffing`;
`remove_stuffing_eq_unstuffR` below proves it equal to the translation. -/
def unstuffR : List Nat → List Nat
  | [] => []
  | [a] => [a]
  | [a, b] => [a, b]
  | [a, b, c] => [a, b, c]
  | a :: b :: c :: d :: t =>
    if a = 0xFF ∧ b = 0xFF ∧ c = 0xFD ∧ d = 0xFD then
      0xFF :: 0xFF :: 0xFD :: unstuffR t
    else a :: unstuffR (b :: c :: d :: t)

/-- Fold form of the reversed-index insertion loop in `add_stuffing`. -/
def insert_all (L : List Nat) (p : List Nat) : List Nat :=
  L.foldr (fun i acc => acc.insertIdx i 0xFD) p

/-- Fold form of the reversed-index pop loop in `remove_stuffing`. -/
def erase_all (L : List Nat) (p : List Nat) : List Nat :=
  L.foldr (fun i acc => acc.eraseIdx i) p

/-! ## Reference CRC-16/IBM

The spec defines the checksum as CRC-16/IBM: polynomial `0x8005`, initial
value 0, no input or output reflection, no final XOR, bytes processed most
significant bit first.  The following reference definitions are written from
that description, to be compared with the table-driven `calc_crc_16`. -/

/-- One bit-serial step: shift the 16-bit register left and fold in the
polynomial `0x8005` when the bit shifted out was set. -/
def crc_bit_step (x : Nat) : Nat :=
  if x &&& 0x8000 ≠ 0 then ((x <<< 1) ^^^ 0x8005) &&& 0xFFFF
  else (x <<< 1) &&& 0xFFFF

/-- Eight bit-serial steps, one full byte. -/
def crc_bits8 (x : Nat) : Nat := crc_bit_step^[8] x

/-- Reference per-byte update: xor the byte into the top of the register,
then run eight bit-serial steps. -/
def crc_ref_byte (crc b : Nat) : Nat := crc_bits8 (crc ^^^ (b <<< 8))

/-- Reference CRC-16/IBM of a byte string. -/
def crc16_ref (s : List Nat) : Nat := s.foldl crc_ref_byte 0

/-- Reference value of the table entry for byte `i`. -/
def crc_ref_entry (i : Nat) : Nat := crc_bits8 (i <<< 8)

/-! ## Protocol 1 packets (src/dxl2/protocol_v1.py) -/

/-- Fields of `StatusPacketV1` (protocol_v1.py lines 93-99). -/
structure StatusPacketV1 where
  packet_id : Nat
  length : Nat
  error : Nat
  params : List Nat
  checksum : Nat
deriving DecidableEq

/-- `InstructionPacketV1.as_tuple` (protocol_v1.py lines 63-83): header, id,
`len(params) + 2`, instruction, params, checksum over everything before it. -/
def instruction_packet_v1 (packet_id instruction : Nat)
    (params : List Nat) : List Nat :=
  let front := [0xFF, 0xFF, packet_id, params.length + 2, instruction] ++ params
  front ++ [calc_checksum front]

/-- `StatusPacketV1.as_tuple` (protocol_v1.py lines 103-111). -/
def status_tuple_v1 (rx : StatusPacketV1) : List Nat :=
  [0xFF, 0xFF, rx.packet_id, rx.length, rx.error] ++ rx.params ++ [rx.checksum]

/-- `StatusPacketV1.is_valid` (protocol_v1.py lines 113-114). -/
def statusPacketV1_is_valid (rx : StatusPacketV1) : Bool :=
  calc_checksum (status_tuple_v1 rx).dropLast == rx.checksum

/-- Body parse of `StatusPacketV1.read_from` once the `FF FF` header was
found (protocol_v1.py lines 138-172): read id and length, then `length` more
bytes; `error` is the first body byte, `params` sits between it and the
trailing checksum.  Returns the packet (or `none` on a short read) together
with the bytes left on the wire. -/
def parse_after_header_v1 (rest : List Nat) :
    Option StatusPacketV1 × List Nat :=
  match rest with
  | pid :: len :: more =>
    if more.length < len then (none, [])
    else
      let body := more.take len
      (some { packet_id := pid, length := len, error := body.headD 0,
              params := (body.drop 1).dropLast, checksum := body.getLastD 0 },
       more.drop len)
  | _ => (none, [])

/-- `StatusPacketV1.read_from` (protocol_v1.py lines 116-172) over the bytes
available on the wire: discard leading bytes until `FF FF`, then parse the
body.  `none` models the timeout, with the whole stream consumed. -/
def read_from_v1 : List Nat → Option StatusPacketV1 × List Nat
  | a :: t =>
    if a = 0xFF ∧ t.take 1 = [0xFF] then parse_after_header_v1 (t.drop 1)
    else read_from_v1 t
  | [] => (none, [])

/-- `Status.is_ok` (protocol_v1.py lines 186-187). -/
def status_is_ok_v1 (rx : StatusPacketV1) : Bool :=
  statusPacketV1_is_valid rx && (rx.error == 0)

/-- `DynamixelSerialV1.read` (protocol_v1.py lines 224-241): after writing
the READ instruction, read one status packet; when it is valid with a zero
error byte return the params merged big-endian (`Status.parse_bytes`),
otherwise `None`. -/
def dxl_read_v1 (stream : List Nat) : Option Nat :=
  match (read_from_v1 stream).1 with
  | none => none
  | some rx =>
    if status_is_ok_v1 rx then some (merge_bytes_be rx.params) else none

/-- TX bytes of `DynamixelSerialV1.read(dxl_id, address, length)`:
`InstructionPacketV1(dxl_id, READ, [address, length])` with `READ = 0x02`. -/
def dxl_read_v1_tx (dxl_id address length : Nat) : List Nat :=
  instruction_packet_v1 dxl_id 0x02 [address, length]

/-! ## Protocol 2 packets (src/dxl2/protocol_v2.py) -/

/-- Fields of `StatusPacketV2` (protocol_v2.py lines 153-165). -/
structure StatusPacketV2 where
  packet_id : Nat
  length : Nat
  instruction : Nat
  error : Nat
  params : List Nat
  crc : Nat
deriving DecidableEq

/-- `StatusPacketV2.packet` (protocol_v2.py lines 167-177). -/
def statusPacketV2_bytes (rx : StatusPacketV2) : List Nat :=
  [0xFF, 0xFF, 0xFD, 0x00, rx.packet_id] ++ split_bytes rx.length ++
    [rx.instruction, rx.error] ++ rx.params ++ split_bytes rx.crc

/-- `StatusPacketV2.valid` (protocol_v2.py lines 179-181): CRC over all bytes
but the trailing two. -/
def statusPacketV2_valid (rx : StatusPacketV2) : Bool :=
  calc_crc_16 (statusPacketV2_bytes rx).dropLast.dropLast == rx.crc

/-- `StatusPacketV2.remove_stuffing` (protocol_v2.py lines 183-199): unstuff
the params, then store the CRC recomputed over the shortened packet. -/
def statusPacketV2_remove_stuffing (rx : StatusPacketV2) : StatusPacketV2 :=
  let rx' := { rx with params := remove_stuffing rx.params }
  { rx' with crc := calc_crc_16 (statusPacketV2_bytes rx').dropLast.dropLast }

/-- `InstructionPacketV2.packet` (protocol_v2.py lines 102-123): the length
field is `len(params) + 3` and the CRC covers every byte before it. -/
def instruction_packet_v2 (packet_id instruction : Nat)
    (params : List Nat) : List Nat :=
  let front := [0xFF, 0xFF, 0xFD, 0x00, packet_id] ++
    split_bytes (params.length + 3) ++ [instruction] ++ params
  front ++ split_bytes (calc_crc_16 front)

/-- Bytes placed on the wire by `transmit` (protocol_v2.py lines 202-208):
`tx.add_stuffing()` stuffs the params, and `dataclasses.replace` re-runs
`__post_init__`, so length and CRC are recomputed over the stuffed params. -/
def transmit_wire_v2 (packet_id instruction : Nat)
    (params : List Nat) : List Nat :=
  instruction_packet_v2 packet_id instruction (add_stuffing params)

/-- `build_rx` from tests/test_protocol_v2.py (lines 53-64): a status frame
over raw (already stuffed) params: length field `len(params) + 4`,
instruction byte 0x55, CRC over every byte before the CRC field. -/
def build_rx_v2 (packet_id error : Nat) (params : List Nat) : List Nat :=
  let front := [0xFF, 0xFF, 0xFD, 0x00, packet_id] ++
    split_bytes (params.length + 4) ++ [0x55, error] ++ params
  front ++ split_bytes (calc_crc_16 front)

/-- A status frame corrupted in transit: the frame of `build_rx_v2` with its
stored CRC xored with 1, so the framing (header, id, length) still parses
but the CRC check fails. -/
def build_rx_v2_bad_crc (packet_id error : Nat) (params : List Nat) : List Nat :=
  let front := [0xFF, 0xFF, 0xFD, 0x00, packet_id] ++
    split_bytes (params.length + 4) ++ [0x55, error] ++ params
  front ++ split_bytes (calc_crc_16 front ^^^ 1)

/-- `find_header` (protocol_v2.py lines 211-228) over the available bytes:
discard leading bytes until `FF FF FD 00`; `none` models the timeout, the
whole stream having been consumed. -/
def find_header_v2 : List Nat → Option (List Nat)
  | a :: t =>
    if a = 0xFF ∧ t.take 3 = [0xFF, 0xFD, 0x00] then some (t.drop 3)
    else find_header_v2 t
  | [] => none

/-- Body of `receive` (protocol_v2.py lines 237-263) once the header was
found: read id and the two length bytes, then `length` more bytes;
`instruction` and `error` are popped off the front, the params sit before
the two trailing CRC bytes.  When the CRC validates, stuffing is removed;
an error byte with bit 0x80 set raises `HardwareError(packet_id)`,
modelled as `Except.error packet_id`. -/
def parse_after_header_v2 (r1 : List Nat) :
    Except Nat (Option StatusPacketV2 × List Nat) :=
  match r1 with
  | pid :: ll :: lh :: r2 =>
    let length := merge_bytes_le [ll, lh]
    if r2.length < length then .ok (none, [])
    else
      let rest := r2.take length
      let body := rest.drop 2
      let rx : StatusPacketV2 :=
        { packet_id := pid, length := length,
          instruction := rest.headD 0, error := (rest.drop 1).headD 0,
          params := body.take (body.length - 2),
          crc := merge_bytes_le (body.drop (body.length - 2)) }
      let rx := if statusPacketV2_valid rx then
          statusPacketV2_remove_stuffing rx
        else rx
      if rx.error &&& 0x80 ≠ 0 then .error pid
      else .ok (some rx, r2.drop length)
  | _ => .ok (none, [])

/-- `receive` (protocol_v2.py lines 231-263).  `Except.error i` models
`raise HardwareError(packet_id)`; `.ok (none, _)` a timeout or short read;
on success the second component is what remains unread on the wire. -/
def receive_v2 (stream : List Nat) :
    Except Nat (Option StatusPacketV2 × List Nat) :=
  match find_header_v2 stream with
  | none => .ok (none, [])
  | some r1 => parse_after_header_v2 r1

/-! ## Response (src/dxl2/response.py) -/

/-- Python values carried in `Response.data`. -/
inductive PyData where
  | bytes (bs : List Nat)
  | num (n : Nat)
  | numList (ns : List Nat)
deriving DecidableEq

/-- The `Response` dataclass (response.py lines 5-12): every field is
optional and defaults to `None`. -/
structure Response where
  timeout : Option Bool := none
  corrupted : Option Bool := none
  error : Option Nat := none
  dxl_id : Option Nat := none
  data : Option PyData := none
deriving DecidableEq

/-- Python truthiness of an `Optional[bool]`: `None` and `False` are falsy. -/
def truthy : Option Bool → Bool
  | some true => true
  | _ => false

/-- `Response.ok` (response.py lines 24-30): `not timeout and not corrupted`,
additionally requiring `error == 0` whenever `error` is not `None`. -/
def Response.ok (r : Response) : Bool :=
  let ok := !truthy r.timeout && !truthy r.corrupted
  match r.error with
  | none => ok
  | some e => ok && (e == 0)

/-- `Response.from_rx` (response.py lines 14-22). -/
def Response.from_rx (rx : StatusPacketV2) : Response :=
  { timeout := some false, corrupted := some (!statusPacketV2_valid rx),
    error := some rx.error, dxl_id := some rx.packet_id,
    data := some (.bytes rx.params) }

/-- The raw param bytes held in a `Response.data`. -/
def resp_data_bytes : Option PyData → List Nat
  | some (.bytes bs) => bs
  | _ => []

/-- The decoded integer held in a `Response.data`. -/
def resp_data_num : Option PyData → Nat
  | some (.num v) => v
  | _ => 0

/-- `parse_bytes` (protocol_v2.py lines 324-325): replace the data with the
little-endian merge of its raw bytes. -/
def parse_bytes_resp (r : Response) : Response :=
  { r with data := some (.num (merge_bytes_le (resp_data_bytes r.data))) }

/-! ## Transaction engine models -/

/-- The `count` branch of `stream_response` (protocol_v2.py lines 297-309):
read up to `count` status packets; a missing answer yields a timeout
`Response` and stops, an invalid frame yields a corrupted `Response` and
stops, otherwise `Response.from_rx` is yielded and the loop continues.  A
`HardwareError` raised inside `receive` propagates. -/
def stream_response_count (stream : List Nat) :
    Nat → Except Nat (List Response × List Nat)
  | 0 => .ok ([], stream)
  | n + 1 =>
    match receive_v2 stream with
    | .error i => .error i
    | .ok (none, rest) =>
      .ok ([{ timeout := some true, corrupted := some false }], rest)
    | .ok (some rx, rest) =>
      if !statusPacketV2_valid rx then
        .ok ([{ timeout := some false, corrupted := some true }], rest)
      else
        match stream_response_count rest n with
        | .error i => .error i
        | .ok (rs, rest') => .ok (Response.from_rx rx :: rs, rest')

/-- `DynamixelSerialV2._sync_read` (protocol_v2.py lines 456-466), shared by
`sync_read` and `bulk_read`: stream up to `n` responses, append the decoded
value (`parse_bytes(r).data`) of every `ok` response, and return the last
streamed response with its data replaced by the collected list. -/
def sync_read_gather (stream : List Nat) (n : Nat) : Except Nat Response :=
  match stream_response_count stream n with
  | .error i => .error i
  | .ok (rs, _) =>
    let data := rs.foldl
      (fun acc r =>
        if r.ok then acc ++ [resp_data_num (parse_bytes_resp r).data] else acc)
      []
    match rs.getLast? with
    | none => .ok { timeout := some true, corrupted := some false }
    | some r => .ok { r with data := some (.numList data) }

/-- One well-behaved device on the wire, described by its id and the raw
(unstuffed) payload it answers with: the frame carries error byte 0 and the
stuffed payload, as a compliant device would send it. -/
def frame_ok_v2 (d : Nat × List Nat) : List Nat :=
  build_rx_v2 d.1 0 (add_stuffing d.2)

/-- The concatenated answers of a list of well-behaved devices. -/
def frames_ok_v2 (devs : List (Nat × List Nat)) : List Nat :=
  (devs.map frame_ok_v2).flatten

/-- The `Response` that `receive` + `Response.from_rx` produce for one
well-behaved device's answer. -/
def resp_ok_v2 (d : Nat × List Nat) : Response :=
  { timeout := some false, corrupted := some false, error := some 0,
    dxl_id := some d.1, data := some (.bytes d.2) }

/-- The serial wire as seen by one bus operation: the bytes waiting to be
read and the log of bytes written so far. -/
structure SerialState where
  rx : List Nat
  tx : List Nat
deriving DecidableEq

/-- `ser.write(buffer)` with every byte accepted. -/
def serial_write (st : SerialState) (buffer : List Nat) : SerialState :=
  { st with tx := st.tx ++ buffer }

/-- `transmit(ser, tx)` (protocol_v2.py lines 202-208): stuff and write; the
read side of the port is untouched. -/
def transmit_v2 (st : SerialState) (packet_id instruction : Nat)
    (params : List Nat) : SerialState :=
  serial_write st (transmit_wire_v2 packet_id instruction params)

/-- Params built by `DynamixelSerialV2.sync_write` (protocol_v2.py lines
478-487): two-byte address and length, then id and the `length`-byte
little-endian value for each motor. -/
def sync_write_params_v2 (address length : Nat)
    (pairs : List (Nat × Nat)) : List Nat :=
  split_bytes address ++ split_bytes length ++
    pairs.foldl (fun acc p => acc ++ [p.1] ++ split_bytes p.2 length) []

/-- `DynamixelSerialV2.sync_write` (protocol_v2.py lines 478-489): build the
broadcast SYNC_WRITE (0x83) packet and transmit it; the function returns
without reading. -/
def sync_write_v2 (st : SerialState) (address length : Nat)
    (pairs : List (Nat × Nat)) : SerialState :=
  transmit_v2 st 0xFE 0x83 (sync_write_params_v2 address length pairs)

/-- Params built by `DynamixelSerialV2.bulk_write` (protocol_v2.py lines
517-524): id, two-byte address, two-byte length, `length`-byte value for
each entry `(id, address, length, value)`. -/
def bulk_write_params_v2 (entries : List (Nat × Nat × Nat × Nat)) : List Nat :=
  entries.foldl
    (fun acc e => acc ++ [e.1] ++ split_bytes e.2.1 ++ split_bytes e.2.2.1 ++
      split_bytes e.2.2.2 e.2.2.1)
    []

/-- `DynamixelSerialV2.bulk_write` (protocol_v2.py lines 517-527): build the
broadcast BULK_WRITE (0x93) packet and transmit it; no read happens. -/
def bulk_write_v2 (st : SerialState)
    (entries : List (Nat × Nat × Nat × Nat)) : SerialState :=
  transmit_v2 st 0xFE 0x93 (bulk_write_params_v2 entries)

/-! ## v1.py / v2.py (`MotorBus` layer) -/

/-- `Connection.read_packet` in v1.py (lines 171-193) performs the same
byte-level scan and parse as `StatusPacketV1.read_from`: find `FF FF`, read
id and length, read `length` further bytes. -/
def read_packet_v1py (stream : List Nat) : Option StatusPacketV1 × List Nat :=
  read_from_v1 stream

/-- Field names of the `Response` dataclass (response.py lines 5-12). -/
def response_field_names : List String :=
  ["timeout", "corrupted", "error", "dxl_id", "data"]

/-- A Python dataclass constructor accepts only keyword arguments that name
declared fields; any other keyword raises `TypeError`. -/
def dataclass_call_ok (kwargs : List String) : Bool :=
  kwargs.all (response_field_names.contains ·)

/-- `MotorBus.ping` in v1.py (lines 299-311) over the bytes available on the
wire.  When no packet frames, `Response(timeout=True)` is returned; once a
status packet frames, both remaining code paths construct
`Response(..., valid=...)`, and `valid` is not a field of `Response`. -/
def motorbus_ping_v1py (stream : List Nat) : Except String Response :=
  match (read_packet_v1py stream).1 with
  | none =>
    if dataclass_call_ok ["timeout"] then .ok { timeout := some true }
    else .error "TypeError"
  | some rx =>
    if statusPacketV1_is_valid rx = false ∨ rx.error ≠ 0 then
      if dataclass_call_ok ["error", "valid"] then
        .ok { error := some rx.error }
      else .error "TypeError"
    else
      if dataclass_call_ok ["error", "valid", "data"] then
        .ok { error := some 0, data := some (.bytes []) }
      else .error "TypeError"

/-- Params built by `SyncParams` in v1.py (lines 215-229): one-byte address
and length, then id and the `length`-byte little-endian value per motor. -/
def sync_params_v1py (address length : Nat)
    (pairs : List (Nat × Nat)) : List Nat :=
  [address, length] ++
    pairs.foldl (fun acc p => acc ++ [p.1] ++ split_bytes p.2 length) []

/-- `InstructionPacket.raw` in v1.py (lines 73-93): one length byte on the
wire, but `__post_init__` feeds `split_bytes(length)` (two bytes, the high
one 0x00, which does not change the sum) to `calc_checksum`, and `raw`
appends the checksum via `split_bytes`, so two checksum bytes (the second
0x00) end the frame. -/
def instruction_raw_v1py (packet_id instruction : Nat)
    (params : List Nat) : List Nat :=
  let checksum := calc_checksum ([0xFF, 0xFF, packet_id] ++
    split_bytes (params.length + 2) ++ [instruction] ++ params)
  [0xFF, 0xFF, packet_id, params.length + 2, instruction] ++ params ++
    split_bytes checksum

/-- `MotorBus.sync_write` in v1.py (lines 399-413): write the broadcast
SYNC_WRITE instruction packet (`tx.raw`, with its two trailing checksum
bytes), then READ one status packet from the port.  On a timeout
`Response(timeout=True)` is returned; otherwise the code constructs
`Response(..., valid=...)`, which raises `TypeError` because `Response`
has no `valid` field. -/
def motorbus_sync_write_v1py (st : SerialState) (address length : Nat)
    (pairs : List (Nat × Nat)) : Except String Response × SerialState :=
  let st1 := serial_write st
    (instruction_raw_v1py 0xFE 0x83 (sync_params_v1py address length pairs))
  let parsed := read_packet_v1py st1.rx
  let st2 : SerialState := { st1 with rx := parsed.2 }
  match parsed.1 with
  | none => (.ok { timeout := some true }, st2)
  | some _ => (.error "TypeError", st2)

/-- `InstructionPacket.raw` in v2.py (lines 146-180): `__post_init__` stores
the length of the UNSTUFFED params and a CRC computed over the STUFFED
params, while `raw` emits the UNSTUFFED params.  `Connection.write_packet`
(v2.py lines 321-326) writes exactly these bytes to the port. -/
def instruction_raw_v2py (packet_id instruction : Nat)
    (params : List Nat) : List Nat :=
  let crc_input := [0xFF, 0xFF, 0xFD, 0x00, packet_id] ++
    split_bytes (params.length + 3) ++ [instruction] ++ add_stuffing params
  [0xFF, 0xFF, 0xFD, 0x00, packet_id] ++ split_bytes (params.length + 3) ++
    [instruction] ++ params ++ split_bytes (calc_crc_16 crc_input)

/-- The raised exception of an `Except` computation, when there is one. -/
def except_error {e a : Type} : Except e a → Option e
  | .error x => some x
  | .ok _ => none

/-! ## Theorems -/

example : calc_checksum [0xFF, 0xFF, 0x01, 0x04, 0x02, 0x2B, 0x04] = 0xC9 := by decide

/-- A list whose first two elements are known splits off those elements. -/
theorem eq_cons_cons_of_take_two {l : List Nat} {x y : Nat}
    (h : l.take 2 = [x, y]) : l = x :: y :: l.drop 2 := by
  match l with
  | [] => simp at h
  | [a] => simp at h
  | a :: b :: t =>
    simp only [List.take_succ_cons, List.take_zero] at h
    simp only [List.cons.injEq] at h ⊢
    obtain ⟨rfl, rfl, -⟩ := h
    exact ⟨rfl, rfl, rfl⟩

/-- A list whose first three elements are known splits off those elements. -/
theorem eq_cons_cons_cons_of_take_three {l : List Nat} {x y z : Nat}
    (h : l.take 3 = [x, y, z]) : l = x :: y :: z :: l.drop 3 := by
  match l with
  | [] => simp at h
  | [a] => simp at h
  | [a, b] => simp at h
  | a :: b :: c :: t =>
    simp only [List.take_succ_cons, List.take_zero] at h
    simp only [List.cons.injEq] at h ⊢
    obtain ⟨rfl, rfl, rfl, -⟩ := h
    exact ⟨rfl, rfl, rfl, rfl⟩

/-- `stuffR` preserves any initial segment of length at most 3. -/
theorem stuffR_take_of_le_three :
    ∀ (p : List Nat) (n : Nat), n ≤ 3 → (stuffR p).take n = p.take n := by
  have H : ∀ (len : Nat) (p : List Nat), p.length ≤ len →
      ∀ (n : Nat), n ≤ 3 → (stuffR p).take n = p.take n := by
    intro len
    induction len with
    | zero =>
      intro p hp n _
      rw [Nat.le_zero, List.length_eq_zero] at hp
      subst hp
      rfl
    | succ k ih =>
      intro p hp n hn
      match p with
      | [] => rfl
      | [a] => rfl
      | [a, b] => rfl
      | a :: b :: c :: t =>
        simp only [stuffR]
        by_cases hc : a = 0xFF ∧ b = 0xFF ∧ c = 0xFD
        · rw [if_pos hc]
          obtain ⟨rfl, rfl, rfl⟩ := hc
          interval_cases n <;> simp
        · rw [if_neg hc]
          match n with
          | 0 => simp
          | n + 1 =>
            simp only [List.take_succ_cons, List.cons.injEq, true_and]
            have hlen : (b :: c :: t).length ≤ k := by
              simp only [List.length_cons] at hp ⊢; omega
            exact ih (b :: c :: t) hlen n (by omega)
  exact fun p n hn => H p.length p le_rfl n hn

/-- Removing the stuffing that `stuffR` inserted restores the original
parameter bytes. -/
theorem unstuffR_stuffR (p : List Nat) : unstuffR (stuffR p) = p := by
  have H : ∀ (len : Nat) (p : List Nat), p.length ≤ len →
      unstuffR (stuffR p) = p := by
    intro len
    induction len with
    | zero =>
      intro p hp
      rw [Nat.le_zero, List.length_eq_zero] at hp
      subst hp
      rfl
    | succ k ih =>
      intro p hp
      match p with
      | [] => rfl
      | [a] => rfl
      | [a, b] => rfl
      | a :: b :: c :: t =>
        simp only [stuffR]
        by_cases hc : a = 0xFF ∧ b = 0xFF ∧ c = 0xFD
        · rw [if_pos hc]
          obtain ⟨rfl, rfl, rfl⟩ := hc
          simp only [unstuffR, and_self, ite_true, List.cons.injEq, true_and]
          have hlen : t.length ≤ k := by
            simp only [List.length_cons] at hp; omega
          exact ih t hlen
        · rw [if_neg hc]
          have hlen : (b :: c :: t).length ≤ k := by
            simp only [List.length_cons] at hp ⊢; omega
          match t with
          | [] =>
            -- stuffR [b, c] = [b, c]; unstuffR [a, b, c] = [a, b, c]
            rfl
          | d :: t' =>
            have h3 : (stuffR (b :: c :: d :: t')).take 3 = [b, c, d] := by
              rw [stuffR_take_of_le_three _ 3 le_rfl]
              rfl
            rw [eq_cons_cons_cons_of_take_three h3]
            have hno : ¬(a = 0xFF ∧ b = 0xFF ∧ c = 0xFD ∧ d = 0xFD) := by
              rintro ⟨rfl, rfl, rfl, -⟩
              exact hc ⟨rfl, rfl, rfl⟩
            simp only [unstuffR, if_neg hno, List.cons.injEq, true_and]
            rw [← eq_cons_cons_cons_of_take_three h3]
            exact ih (b :: c :: d :: t') hlen
  exact H p.length p le_rfl

/-- After `stuffR`, every occurrence of the window `[FF, FF, FD]` is
immediately followed by a `0xFD` byte. -/
theorem stuffR_no_bare_header :
    ∀ (p : List Nat) (i : Nat),
      ((stuffR p).drop i).take 3 = [0xFF, 0xFF, 0xFD] →
      ((stuffR p).drop i).take 4 = [0xFF, 0xFF, 0xFD, 0xFD] := by
  have H : ∀ (len : Nat) (p : List Nat), p.length ≤ len → ∀ (i : Nat),
      ((stuffR p).drop i).take 3 = [0xFF, 0xFF, 0xFD] →
      ((stuffR p).drop i).take 4 = [0xFF, 0xFF, 0xFD, 0xFD] := by
    intro len
    induction len with
    | zero =>
      intro p hp i h
      rw [Nat.le_zero, List.length_eq_zero] at hp
      subst hp
      simp [stuffR] at h
    | succ k ih =>
      intro p hp i h
      match p with
      | [] => simp [stuffR] at h
      | [a] =>
        exfalso
        have := congrArg List.length h
        simp [stuffR, List.length_take, List.length_drop] at this
        omega
      | [a, b] =>
        exfalso
        have := congrArg List.length h
        simp [stuffR, List.length_take, List.length_drop] at this
        omega
      | a :: b :: c :: t =>
        simp only [stuffR] at h ⊢
        by_cases hc : a = 0xFF ∧ b = 0xFF ∧ c = 0xFD
        · rw [if_pos hc] at h ⊢
          obtain ⟨rfl, rfl, rfl⟩ := hc
          have hlen : t.length ≤ k := by
            simp only [List.length_cons] at hp; omega
          match i with
          | 0 => rfl
          | 1 => simp at h
          | 2 => simp at h
          | 3 => simp at h
          | i + 4 =>
            simp only [List.drop_succ_cons] at h ⊢
            exact ih t hlen i h
        · rw [if_neg hc] at h ⊢
          have hlen : (b :: c :: t).length ≤ k := by
            simp only [List.length_cons] at hp ⊢; omega
          match i with
          | 0 =>
            exfalso
            simp only [List.drop_zero, List.take_succ_cons, List.cons.injEq] at h
            obtain ⟨rfl, h2⟩ := h
            have h2' : (b :: c :: t).take 2 = [0xFF, 0xFD] := by
              rw [← stuffR_take_of_le_three (b :: c :: t) 2 (by omega)]
              exact h2
            simp only [List.take_succ_cons, List.take_zero, List.cons.injEq] at h2'
            exact hc ⟨rfl, h2'.1, h2'.2.1⟩
          | i + 1 =>
            simp only [List.drop_succ_cons] at h ⊢
            exact ih (b :: c :: t) hlen i h
  exact fun p i h => H p.length p le_rfl i h

theorem add_stuffing_eq_insert_all (p : List Nat) :
    add_stuffing p = insert_all (stuffIndices p) p := by
  unfold add_stuffing insert_all
  rw [List.foldl_reverse]

theorem remove_stuffing_eq_erase_all (p : List Nat) :
    remove_stuffing p = erase_all (unstuffIndices p) p := by
  unfold remove_stuffing erase_all
  rw [List.foldl_reverse]

theorem insert_all_map_succ (L : List Nat) (a : Nat) (p : List Nat) :
    insert_all (L.map (· + 1)) (a :: p) = a :: insert_all L p := by
  induction L with
  | nil => rfl
  | cons i L ih =>
    simp only [List.map_cons, insert_all, List.foldr_cons] at ih ⊢
    rw [ih, List.insertIdx_succ_cons]

theorem erase_all_map_succ (L : List Nat) (a : Nat) (p : List Nat) :
    erase_all (L.map (· + 1)) (a :: p) = a :: erase_all L p := by
  induction L with
  | nil => rfl
  | cons i L ih =>
    simp only [List.map_cons, erase_all, List.foldr_cons] at ih ⊢
    rw [ih, List.eraseIdx_cons_succ]

/-- One-step characterization of the index scan in `add_stuffing`. -/
theorem stuffIndices_cons (a : Nat) (t : List Nat) :
    stuffIndices (a :: t) =
      (if (a :: t).take 3 = [0xFF, 0xFF, 0xFD] then [3] else []) ++
        (stuffIndices t).map (· + 1) := by
  match t with
  | [] =>
    rw [if_neg (by intro h; exact absurd (congrArg List.length h) (by simp))]
    rfl
  | [b] =>
    rw [if_neg (by intro h; exact absurd (congrArg List.length h) (by simp))]
    rfl
  | b :: c :: t' =>
    have hshift :
        List.filter
          (fun i => decide (((a :: b :: c :: t').drop i).take 3 =
            [0xFF, 0xFF, 0xFD]))
          (List.map Nat.succ (List.range ((b :: c :: t').length - 2))) =
        List.map Nat.succ
          (List.filter
            (fun i => decide (((b :: c :: t').drop i).take 3 =
              [0xFF, 0xFF, 0xFD]))
            (List.range ((b :: c :: t').length - 2))) := by
      rw [List.filter_map]
      congr 1
    unfold stuffIndices
    rw [show (a :: b :: c :: t').length - 2 = ((b :: c :: t').length - 2) + 1 by
      simp only [List.length_cons]; omega]
    rw [List.range_succ_eq_map, List.filter_cons, hshift]
    by_cases hcond : (a :: b :: c :: t').take 3 = [0xFF, 0xFF, 0xFD]
    · rw [if_pos (by simpa using hcond), if_pos hcond]
      simp only [List.map_cons, List.map_map, List.cons_append, List.nil_append,
        Nat.zero_add, List.cons.injEq, true_and]
      exact List.map_congr_left (fun j _ => by simp [Function.comp])
    · rw [if_neg (by simpa using hcond), if_neg hcond]
      simp only [List.map_map, List.nil_append]
      exact List.map_congr_left (fun j _ => by simp [Function.comp])

/-- One-step characterization of the index scan in `remove_stuffing`. -/
theorem unstuffIndices_cons (a : Nat) (t : List Nat) :
    unstuffIndices (a :: t) =
      (if (a :: t).take 4 = [0xFF, 0xFF, 0xFD, 0xFD] then [3] else []) ++
        (unstuffIndices t).map (· + 1) := by
  match t with
  | [] =>
    rw [if_neg (by intro h; exact absurd (congrArg List.length h) (by simp))]
    rfl
  | [b] =>
    rw [if_neg (by intro h; exact absurd (congrArg List.length h) (by simp))]
    rfl
  | [b, c] =>
    rw [if_neg (by intro h; exact absurd (congrArg List.length h) (by simp))]
    rfl
  | b :: c :: d :: t' =>
    have hshift :
        List.filter
          (fun i => decide (((a :: b :: c :: d :: t').drop i).take 4 =
            [0xFF, 0xFF, 0xFD, 0xFD]))
          (List.map Nat.succ (List.range ((b :: c :: d :: t').length - 3))) =
        List.map Nat.succ
          (List.filter
            (fun i => decide (((b :: c :: d :: t').drop i).take 4 =
              [0xFF, 0xFF, 0xFD, 0xFD]))
            (List.range ((b :: c :: d :: t').length - 3))) := by
      rw [List.filter_map]
      congr 1
    unfold unstuffIndices
    rw [show (a :: b :: c :: d :: t').length - 3 =
        ((b :: c :: d :: t').length - 3) + 1 by
      simp only [List.length_cons]; omega]
    rw [List.range_succ_eq_map, List.filter_cons, hshift]
    by_cases hcond : (a :: b :: c :: d :: t').take 4 = [0xFF, 0xFF, 0xFD, 0xFD]
    · rw [if_pos (by simpa using hcond), if_pos hcond]
      simp only [List.map_cons, List.map_map, List.cons_append, List.nil_append,
        Nat.zero_add, List.cons.injEq, true_and]
      exact List.map_congr_left (fun j _ => by simp [Function.comp])
    · rw [if_neg (by simpa using hcond), if_neg hcond]
      simp only [List.map_map, List.nil_append]
      exact List.map_congr_left (fun j _ => by simp [Function.comp])

theorem insert_all_cons (i : Nat) (L : List Nat) (p : List Nat) :
    insert_all (i :: L) p = (insert_all L p).insertIdx i 0xFD := rfl

theorem erase_all_cons (i : Nat) (L : List Nat) (p : List Nat) :
    erase_all (i :: L) p = (erase_all L p).eraseIdx i := rfl

/-- The index-then-insert loop of `add_stuffing` computes the same bytes as
the recursive `stuffR`. -/
theorem add_stuffing_eq_stuffR (p : List Nat) : add_stuffing p = stuffR p := by
  have H : ∀ (len : Nat) (p : List Nat), p.length ≤ len →
      add_stuffing p = stuffR p := by
    intro len
    induction len with
    | zero =>
      intro p hp
      rw [Nat.le_zero, List.length_eq_zero] at hp
      subst hp
      rfl
    | succ k ih =>
      intro p hp
      match p with
      | [] => rfl
      | [a] => rfl
      | [a, b] => rfl
      | a :: b :: c :: t =>
        rw [add_stuffing_eq_insert_all]
        by_cases hc : a = 0xFF ∧ b = 0xFF ∧ c = 0xFD
        · obtain ⟨rfl, rfl, rfl⟩ := hc
          have hlen : t.length ≤ k := by
            simp only [List.length_cons] at hp; omega
          rw [stuffIndices_cons,
            if_pos (show List.take 3 (0xFF :: 0xFF :: 0xFD :: t) =
              [0xFF, 0xFF, 0xFD] by rfl)]
          rw [stuffIndices_cons (0xFF) (0xFD :: t), if_neg (by simp)]
          rw [stuffIndices_cons (0xFD) t, if_neg (by simp)]
          simp only [List.nil_append, List.singleton_append]
          rw [insert_all_cons, insert_all_map_succ, insert_all_map_succ,
            insert_all_map_succ]
          rw [← add_stuffing_eq_insert_all, ih t hlen]
          rw [List.insertIdx_succ_cons, List.insertIdx_succ_cons,
            List.insertIdx_succ_cons, List.insertIdx_zero]
          simp only [stuffR, and_self, ite_true]
        · have hlen : (b :: c :: t).length ≤ k := by
            simp only [List.length_cons] at hp ⊢; omega
          have hcond : ¬((a :: b :: c :: t).take 3 = [0xFF, 0xFF, 0xFD]) := by
            intro h
            simp only [List.take_succ_cons, List.take_zero,
              List.cons.injEq] at h
            exact hc ⟨h.1, h.2.1, h.2.2.1⟩
          rw [stuffIndices_cons, if_neg hcond]
          simp only [List.nil_append]
          rw [insert_all_map_succ, ← add_stuffing_eq_insert_all,
            ih (b :: c :: t) hlen]
          simp only [stuffR]
          rw [if_neg hc]
  exact H p.length p le_rfl

/-- The index-then-pop loop of `remove_stuffing` computes the same bytes as
the recursive `unstuffR`. -/
theorem remove_stuffing_eq_unstuffR (p : List Nat) :
    remove_stuffing p = unstuffR p := by
  have H : ∀ (len : Nat) (p : List Nat), p.length ≤ len →
      remove_stuffing p = unstuffR p := by
    intro len
    induction len with
    | zero =>
      intro p hp
      rw [Nat.le_zero, List.length_eq_zero] at hp
      subst hp
      rfl
    | succ k ih =>
      intro p hp
      match p with
      | [] => rfl
      | [a] => rfl
      | [a, b] => rfl
      | [a, b, c] => rfl
      | a :: b :: c :: d :: t =>
        rw [remove_stuffing_eq_erase_all]
        by_cases hc : a = 0xFF ∧ b = 0xFF ∧ c = 0xFD ∧ d = 0xFD
        · obtain ⟨rfl, rfl, rfl, rfl⟩ := hc
          have hlen : t.length ≤ k := by
            simp only [List.length_cons] at hp; omega
          rw [unstuffIndices_cons,
            if_pos (show List.take 4 (0xFF :: 0xFF :: 0xFD :: 0xFD :: t) =
              [0xFF, 0xFF, 0xFD, 0xFD] by rfl)]
          rw [unstuffIndices_cons (0xFF) (0xFD :: 0xFD :: t), if_neg (by simp)]
          rw [unstuffIndices_cons (0xFD) (0xFD :: t), if_neg (by simp)]
          rw [unstuffIndices_cons (0xFD) t, if_neg (by simp)]
          simp only [List.nil_append, List.singleton_append]
          rw [erase_all_cons, erase_all_map_succ, erase_all_map_succ,
            erase_all_map_succ, erase_all_map_succ]
          rw [← remove_stuffing_eq_erase_all, ih t hlen]
          rw [List.eraseIdx_cons_succ, List.eraseIdx_cons_succ,
            List.eraseIdx_cons_succ, List.eraseIdx_cons_zero]
          simp only [unstuffR, and_self, ite_true]
        · have hlen : (b :: c :: d :: t).length ≤ k := by
            simp only [List.length_cons] at hp ⊢; omega
          have hcond :
              ¬((a :: b :: c :: d :: t).take 4 = [0xFF, 0xFF, 0xFD, 0xFD]) := by
            intro h
            simp only [List.take_succ_cons, List.take_zero,
              List.cons.injEq] at h
            exact hc ⟨h.1, h.2.1, h.2.2.1, h.2.2.2.1⟩
          rw [unstuffIndices_cons, if_neg hcond]
          simp only [List.nil_append]
          rw [erase_all_map_succ, ← remove_stuffing_eq_erase_all,
            ih (b :: c :: d :: t) hlen]
          simp only [unstuffR]
          rw [if_neg hc]
  exact H p.length p le_rfl

/-- Removing stuffing undoes adding stuffing, for every parameter list. -/
theorem remove_stuffing_add_stuffing (p : List Nat) :
    remove_stuffing (add_stuffing p) = p := by
  rw [add_stuffing_eq_stuffR, remove_stuffing_eq_unstuffR, unstuffR_stuffR]

/-- The wire-invariant form of the stuffing guarantee, stated for the
translation `add_stuffing` itself. -/
theorem add_stuffing_no_bare_header (p : List Nat) (i : Nat)
    (h : ((add_stuffing p).drop i).take 3 = [0xFF, 0xFF, 0xFD]) :
    ((add_stuffing p).drop i).take 4 = [0xFF, 0xFF, 0xFD, 0xFD] := by
  rw [add_stuffing_eq_stuffR] at h ⊢
  exact stuffR_no_bare_header p i h

example : add_stuffing [0xFF, 0xFF, 0xFD] = [0xFF, 0xFF, 0xFD, 0xFD] := by decide
example : add_stuffing [0xFF, 0xFF, 0xFD, 0xFF, 0xFF, 0xFD] =
    [0xFF, 0xFF, 0xFD, 0xFD, 0xFF, 0xFF, 0xFD, 0xFD] := by decide
example : remove_stuffing [0xFF, 0xFF, 0xFD, 0xFD, 0x01] = [0xFF, 0xFF, 0xFD, 0x01] := by decide
example : stuffR [0xFF, 0xFF, 0xFF, 0xFD] = [0xFF, 0xFF, 0xFF, 0xFD, 0xFD] := by decide
example : add_stuffing [0xFF, 0xFF, 0xFF, 0xFD] = [0xFF, 0xFF, 0xFF, 0xFD, 0xFD] := by decide

theorem shiftLeft_one_xor (a b : Nat) :
    (a ^^^ b) <<< 1 = (a <<< 1) ^^^ (b <<< 1) := by
  apply Nat.eq_of_testBit_eq
  intro i
  simp only [Nat.testBit_shiftLeft, Nat.testBit_xor]
  cases h : decide (i ≥ 1) <;> simp

theorem and_8000_cases (x : Nat) :
    x &&& 0x8000 = 0 ∨ x &&& 0x8000 = 0x8000 := by
  have h := Nat.and_two_pow x 15
  rcases hb : x.testBit 15 with _ | _ <;>
    simp only [hb, Bool.toNat_false, Bool.toNat_true, Nat.zero_mul,
      Nat.one_mul] at h
  · exact Or.inl (by simpa using h)
  · exact Or.inr (by simpa using h)

theorem crc_bit_step_xor (x y : Nat) :
    crc_bit_step (x ^^^ y) = crc_bit_step x ^^^ crc_bit_step y := by
  unfold crc_bit_step
  have hxy : (x ^^^ y) &&& 0x8000 = (x &&& 0x8000) ^^^ (y &&& 0x8000) :=
    Nat.and_xor_distrib_right
  rcases and_8000_cases x with hx | hx <;> rcases and_8000_cases y with hy | hy
  · rw [if_neg (by simp [hxy, hx, hy]), if_neg (by simp [hx]),
      if_neg (by simp [hy]), shiftLeft_one_xor, Nat.and_xor_distrib_right]
  · rw [if_pos (by simp [hxy, hx, hy]), if_neg (by simp [hx]),
      if_pos (by simp [hy]), shiftLeft_one_xor, Nat.xor_assoc,
      Nat.and_xor_distrib_right]
  · rw [if_pos (by simp [hxy, hx, hy]), if_pos (by simp [hx]),
      if_neg (by simp [hy]), shiftLeft_one_xor,
      Nat.xor_comm (x <<< 1) (y <<< 1), Nat.xor_assoc,
      Nat.and_xor_distrib_right, Nat.xor_comm ((y <<< 1) &&& 0xFFFF)]
  · rw [if_neg (by simp [hxy, hx, hy]), if_pos (by simp [hx]),
      if_pos (by simp [hy]), shiftLeft_one_xor, ← Nat.and_xor_distrib_right]
    congr 1
    rw [Nat.xor_comm (y <<< 1) 0x8005, Nat.xor_assoc,
      ← Nat.xor_assoc 0x8005 0x8005, Nat.xor_self, Nat.zero_xor]

theorem crc_bits8_xor (x y : Nat) :
    crc_bits8 (x ^^^ y) = crc_bits8 x ^^^ crc_bits8 y := by
  show crc_bit_step^[8] (x ^^^ y) = crc_bit_step^[8] x ^^^ crc_bit_step^[8] y
  induction 8 generalizing x y with
  | zero => rfl
  | succ n ih =>
    rw [Function.iterate_succ_apply, Function.iterate_succ_apply,
      Function.iterate_succ_apply, crc_bit_step_xor]
    exact ih _ _

theorem crc_bit_step_lt (x : Nat) : crc_bit_step x < 65536 := by
  unfold crc_bit_step
  split <;> exact Nat.lt_succ_of_le Nat.and_le_right

theorem crc_bits8_lt (x : Nat) : crc_bits8 x < 65536 := by
  show crc_bit_step^[8] x < 65536
  rw [Function.iterate_succ_apply']
  exact crc_bit_step_lt _

theorem crc_step_lt (crc b : Nat) : crc_step crc b < 65536 :=
  Nat.lt_succ_of_le Nat.and_le_right

theorem calc_crc_16_lt (l : List Nat) : calc_crc_16 l < 65536 := by
  have H : ∀ (l : List Nat) (c : Nat), c < 65536 →
      l.foldl crc_step c < 65536 := by
    intro l
    induction l with
    | nil => exact fun c hc => hc
    | cons b t ih => exact fun c _ => ih (crc_step c b) (crc_step_lt c b)
  exact H l 0 (by omega)

set_option maxRecDepth 4096 in
/-- Eight bit-serial steps on a register whose top byte is clear never meet
the polynomial: they amount to a plain shift by 8. -/
theorem crc_bits8_low (lo : Nat) (hlo : lo < 256) :
    crc_bits8 lo = lo <<< 8 := by
  revert lo hlo
  decide

set_option maxRecDepth 8192 in
/-- The embedded table agrees with the reference table entry for every index. -/
theorem crc_table_matches_ref :
    ∀ i < 256, crc_table.getD i 0 = crc_ref_entry i := by
  decide

theorem shiftLeft_eight_and_FFFF (crc : Nat) :
    (crc <<< 8) &&& 0xFFFF = (crc &&& 0xFF) <<< 8 := by
  apply Nat.eq_of_testBit_eq
  intro i
  have h16 : (0xFFFF : Nat) = 2 ^ 16 - 1 := by norm_num
  have h8 : (0xFF : Nat) = 2 ^ 8 - 1 := by norm_num
  simp only [Nat.testBit_and, Nat.testBit_shiftLeft, h16, h8,
    Nat.testBit_two_pow_sub_one]
  rcases Nat.lt_or_ge i 8 with hi | hi
  · simp [Nat.not_le.mpr hi]
  · rcases Nat.lt_or_ge i 16 with hi16 | hi16
    · simp [hi, hi16, Nat.lt_sub_of_add_lt, show i - 8 < 8 by omega]
    · simp [hi, show ¬(i < 16) by omega, show ¬(i - 8 < 8) by omega]

theorem crc_register_decomp (crc b : Nat) :
    crc ^^^ (b <<< 8) = (((crc >>> 8) ^^^ b) <<< 8) ^^^ (crc &&& 0xFF) := by
  apply Nat.eq_of_testBit_eq
  intro i
  have h8 : (0xFF : Nat) = 2 ^ 8 - 1 := by norm_num
  simp only [Nat.testBit_and, Nat.testBit_xor, Nat.testBit_shiftLeft,
    Nat.testBit_shiftRight, h8, Nat.testBit_two_pow_sub_one]
  rcases Nat.lt_or_ge i 8 with hi | hi
  · simp [Nat.not_le.mpr hi, hi]
  · obtain ⟨j, rfl⟩ := Nat.exists_eq_add_of_le hi
    simp [Nat.le_add_right, show ¬(8 + j < 8) by omega,
      show 8 + j - 8 = j by omega, Bool.xor_comm]

/-- The table-driven byte update of `calc_crc_16` agrees with the reference
bit-serial byte update, on every 16-bit register and byte. -/
theorem crc_step_eq_ref (crc b : Nat) (hc : crc < 65536) (hb : b < 256) :
    crc_step crc b = crc_ref_byte crc b := by
  have hhi : crc >>> 8 < 256 := by
    rw [Nat.shiftRight_eq_div_pow]
    have := (Nat.div_lt_iff_lt_mul (show 0 < 2 ^ 8 by norm_num)
      (x := crc) (y := 256)).mpr (by norm_num; omega)
    simpa using this
  have hidx : (crc >>> 8) ^^^ b < 256 := by
    have := Nat.xor_lt_two_pow (n := 8) (by simpa using hhi) (by simpa using hb)
    simpa using this
  have hmask : ((crc >>> 8) ^^^ b) &&& 0xFF = (crc >>> 8) ^^^ b := by
    rw [show (0xFF : Nat) = 2 ^ 8 - 1 by norm_num,
      Nat.and_pow_two_sub_one_eq_mod]
    exact Nat.mod_eq_of_lt (by simpa using hidx)
  have hlo : crc &&& 0xFF < 256 := Nat.lt_succ_of_le Nat.and_le_right
  have hentry : crc_ref_entry ((crc >>> 8) ^^^ b) < 65536 := crc_bits8_lt _
  have hentry_mask :
      crc_ref_entry ((crc >>> 8) ^^^ b) &&& 0xFFFF =
        crc_ref_entry ((crc >>> 8) ^^^ b) := by
    rw [show (0xFFFF : Nat) = 2 ^ 16 - 1 by norm_num,
      Nat.and_pow_two_sub_one_eq_mod]
    exact Nat.mod_eq_of_lt (by simpa using hentry)
  unfold crc_step
  rw [hmask, crc_table_matches_ref _ hidx, Nat.and_xor_distrib_right,
    shiftLeft_eight_and_FFFF, hentry_mask]
  unfold crc_ref_byte
  rw [crc_register_decomp, crc_bits8_xor, crc_bits8_low _ hlo]
  exact Nat.xor_comm _ _

/-- Claim C2 machinery: the table-driven fold equals the reference fold. -/
theorem calc_crc_16_eq_ref (s : List Nat) (hs : ∀ b ∈ s, b < 256) :
    calc_crc_16 s = crc16_ref s := by
  have H : ∀ (l : List Nat) (c : Nat), c < 65536 → (∀ b ∈ l, b < 256) →
      l.foldl crc_step c = l.foldl crc_ref_byte c := by
    intro l
    induction l with
    | nil => intro c _ _; rfl
    | cons b t ih =>
      intro c hc hl
      have hb : b < 256 := hl b (by simp)
      simp only [List.foldl_cons]
      rw [crc_step_eq_ref c b hc hb]
      exact ih (crc_ref_byte c b) (crc_bits8_lt _) (fun x hx => hl x (by simp [hx]))
  exact H s 0 (by omega) hs

theorem split_bytes_two (n : Nat) :
    split_bytes n = [n % 256, n / 256 % 256] := by
  simp [split_bytes, List.range_succ]

theorem merge_split_two (n : Nat) (h : n < 65536) :
    merge_bytes_le (split_bytes n) = n := by
  rw [split_bytes_two]
  simp only [merge_bytes_le]
  omega

theorem dropLast_two_concat (l : List Nat) (a b : Nat) :
    (l ++ [a, b]).dropLast.dropLast = l := by
  rw [show l ++ [a, b] = (l ++ [a]) ++ [b] by simp]
  rw [List.dropLast_concat, List.dropLast_concat]

/-- Parsing the bytes of a built Protocol 1 instruction packet with the
Protocol 1 status parser consumes the whole frame and yields id, length,
the instruction byte (in the `error` slot of the status layout), the params
and the checksum. -/
theorem read_from_v1_packet (id instr : Nat) (params : List Nat) :
    read_from_v1 (instruction_packet_v1 id instr params) =
      (some { packet_id := id, length := params.length + 2, error := instr,
              params := params,
              checksum := calc_checksum
                ([0xFF, 0xFF, id, params.length + 2, instr] ++ params) },
       []) := by
  unfold instruction_packet_v1
  simp only [List.cons_append, List.nil_append, List.append_assoc]
  rw [read_from_v1]
  rw [if_pos ⟨rfl, rfl⟩]
  show parse_after_header_v1
    (id :: (params.length + 2) :: instr :: (params ++ [_])) = _
  simp only [parse_after_header_v1]
  rw [if_neg (by simp)]
  rw [List.take_of_length_le (by simp),
    List.drop_eq_nil_of_le
      (show (instr :: (params ++
          [calc_checksum (0xFF :: 0xFF :: id :: (params.length + 2) ::
            instr :: params)])).length ≤ params.length + 2 by simp)]
  have hshape : instr :: (params ++
      [calc_checksum (0xFF :: 0xFF :: id :: (params.length + 2) :: instr ::
        params)]) = (instr :: params) ++
      [calc_checksum (0xFF :: 0xFF :: id :: (params.length + 2) :: instr ::
        params)] := by simp
  rw [hshape, List.getLastD_concat]
  simp

theorem statusPacketV2_remove_stuffing_error (rx : StatusPacketV2) :
    (statusPacketV2_remove_stuffing rx).error = rx.error := rfl

theorem parse_after_header_v2_frame (id err L C : Nat) (sp : List Nat)
    (hL : L = sp.length + 4) (hlen : L < 65536) (hC : C < 65536) :
    parse_after_header_v2 (id :: (L % 256) :: (L / 256 % 256) :: 0x55 ::
        err :: (sp ++ [C % 256, C / 256 % 256])) =
      if err &&& 0x80 ≠ 0 then .error id
      else .ok (some (if statusPacketV2_valid ⟨id, L, 0x55, err, sp, C⟩ then
          statusPacketV2_remove_stuffing ⟨id, L, 0x55, err, sp, C⟩
        else ⟨id, L, 0x55, err, sp, C⟩), []) := by
  simp only [parse_after_header_v2]
  have hm : merge_bytes_le [L % 256, L / 256 % 256] = L := by
    simp only [merge_bytes_le]; omega
  rw [hm]
  rw [if_neg (show ¬((0x55 :: err ::
      (sp ++ [C % 256, C / 256 % 256])).length < L) by simp [hL])]
  rw [List.take_of_length_le (show (0x55 :: err ::
      (sp ++ [C % 256, C / 256 % 256])).length ≤ L by simp [hL])]
  rw [List.drop_eq_nil_of_le (show (0x55 :: err ::
      (sp ++ [C % 256, C / 256 % 256])).length ≤ L by simp [hL])]
  simp only [List.headD_cons, List.drop_succ_cons, List.drop_zero,
    List.length_append, List.length_cons, List.length_nil]
  rw [show sp.length + (0 + 1 + 1) - 2 = sp.length from by omega]
  rw [List.take_left, List.drop_left]
  have hm2 : merge_bytes_le [C % 256, C / 256 % 256] = C := by
    simp only [merge_bytes_le]; omega
  rw [hm2]
  have herr : ∀ rx : StatusPacketV2,
      (if statusPacketV2_valid rx then statusPacketV2_remove_stuffing rx
        else rx).error = rx.error := by
    intro rx
    split <;> rfl
  rw [herr]

theorem receive_v2_status_frame (id err : Nat) (sp : List Nat)
    (hlen : sp.length + 4 < 65536) :
    receive_v2 (build_rx_v2 id err sp) =
      if err &&& 0x80 ≠ 0 then .error id
      else .ok (some (statusPacketV2_remove_stuffing
        { packet_id := id, length := sp.length + 4, instruction := 0x55,
          error := err, params := sp,
          crc := calc_crc_16 ([0xFF, 0xFF, 0xFD, 0x00, id] ++
            split_bytes (sp.length + 4) ++ [0x55, err] ++ sp) }), []) := by
  set C := calc_crc_16 ([0xFF, 0xFF, 0xFD, 0x00, id] ++
    split_bytes (sp.length + 4) ++ [0x55, err] ++ sp) with hC
  have hcrc_lt : C < 65536 := calc_crc_16_lt _
  have hfh : find_header_v2 (build_rx_v2 id err sp) =
      some (id :: ((sp.length + 4) % 256) :: ((sp.length + 4) / 256 % 256) ::
        0x55 :: err :: (sp ++ [C % 256, C / 256 % 256])) := by
    simp only [build_rx_v2]
    rw [split_bytes_two (sp.length + 4)] at hC
    rw [split_bytes_two (sp.length + 4), ← hC, split_bytes_two C]
    simp only [List.cons_append, List.nil_append, List.append_assoc]
    rw [find_header_v2, if_pos ⟨rfl, rfl⟩]
    rfl
  rw [receive_v2, hfh]
  show parse_after_header_v2 _ = _
  rw [parse_after_header_v2_frame id err (sp.length + 4) C sp rfl hlen hcrc_lt]
  have hvalid : statusPacketV2_valid
      { packet_id := id, length := sp.length + 4, instruction := 0x55,
        error := err, params := sp, crc := C } = true := by
    unfold statusPacketV2_valid statusPacketV2_bytes
    rw [split_bytes_two C]
    rw [show [0xFF, 0xFF, 0xFD, 0x00, id] ++ split_bytes (sp.length + 4) ++
        [0x55, err] ++ sp ++ [C % 256, C / 256 % 256] =
      ([0xFF, 0xFF, 0xFD, 0x00, id] ++ split_bytes (sp.length + 4) ++
        [0x55, err] ++ sp) ++ [C % 256, C / 256 % 256] by
      simp [List.append_assoc]]
    rw [dropLast_two_concat]
    simp [hC]
  simp [hvalid]

theorem statusPacketV2_remove_stuffing_params (rx : StatusPacketV2) :
    (statusPacketV2_remove_stuffing rx).params = remove_stuffing rx.params :=
  rfl

theorem stuffR_length_le (p : List Nat) : (stuffR p).length ≤ 2 * p.length := by
  have H : ∀ (len : Nat) (p : List Nat), p.length ≤ len →
      (stuffR p).length ≤ 2 * p.length := by
    intro len
    induction len with
    | zero =>
      intro p hp
      rw [Nat.le_zero, List.length_eq_zero] at hp
      subst hp
      simp [stuffR]
    | succ k ih =>
      intro p hp
      match p with
      | [] => simp [stuffR]
      | [a] => simp [stuffR]
      | [a, b] => simp [stuffR]
      | a :: b :: c :: t =>
        simp only [stuffR]
        by_cases hc : a = 0xFF ∧ b = 0xFF ∧ c = 0xFD
        · rw [if_pos hc]
          have := ih t (by simp only [List.length_cons] at hp ⊢; omega)
          simp only [List.length_cons]
          omega
        · rw [if_neg hc]
          have := ih (b :: c :: t)
            (by simp only [List.length_cons] at hp ⊢; omega)
          simp only [List.length_cons] at this ⊢
          omega
  exact H p.length p le_rfl

theorem add_stuffing_length_le (p : List Nat) :
    (add_stuffing p).length ≤ 2 * p.length := by
  rw [add_stuffing_eq_stuffR]
  exact stuffR_length_le p

theorem xor_one_ne (a : Nat) : a ^^^ 1 ≠ a := by
  intro h
  have := congrArg (fun x => x ^^^ a) h
  simp [Nat.xor_comm, ← Nat.xor_assoc] at this

theorem xor_one_lt_65536 (a : Nat) (ha : a < 65536) : a ^^^ 1 < 65536 := by
  have e : (2 : Nat) ^ 16 = 65536 := by norm_num
  have h : a ^^^ 1 < 2 ^ 16 := Nat.xor_lt_two_pow (by omega) (by omega)
  omega

theorem statusPacketV2_bytes_dropLast2 (rx : StatusPacketV2) :
    (statusPacketV2_bytes rx).dropLast.dropLast =
      [0xFF, 0xFF, 0xFD, 0x00, rx.packet_id] ++ split_bytes rx.length ++
        [rx.instruction, rx.error] ++ rx.params := by
  unfold statusPacketV2_bytes
  rw [split_bytes_two rx.crc]
  rw [show [0xFF, 0xFF, 0xFD, 0x00, rx.packet_id] ++ split_bytes rx.length ++
      [rx.instruction, rx.error] ++ rx.params ++
        [rx.crc % 256, rx.crc / 256 % 256] =
    ([0xFF, 0xFF, 0xFD, 0x00, rx.packet_id] ++ split_bytes rx.length ++
      [rx.instruction, rx.error] ++ rx.params) ++
        [rx.crc % 256, rx.crc / 256 % 256] from by simp [List.append_assoc]]
  exact dropLast_two_concat _ _ _

/-- `remove_stuffing` recomputes the stored CRC over the shortened packet,
so the result always passes the `valid` check. -/
theorem statusPacketV2_valid_remove_stuffing (rx : StatusPacketV2) :
    statusPacketV2_valid (statusPacketV2_remove_stuffing rx) = true := by
  simp only [statusPacketV2_valid, statusPacketV2_remove_stuffing]
  rw [statusPacketV2_bytes_dropLast2, statusPacketV2_bytes_dropLast2]
  simp

theorem statusPacketV2_remove_stuffing_id (rx : StatusPacketV2) :
    (statusPacketV2_remove_stuffing rx).packet_id = rx.packet_id := rfl

/-- A status packet whose stored CRC is the CRC of its own leading bytes
passes the `valid` check. -/
theorem statusPacketV2_valid_good (id err : Nat) (sp : List Nat) :
    statusPacketV2_valid ⟨id, sp.length + 4, 0x55, err, sp,
      calc_crc_16 ([0xFF, 0xFF, 0xFD, 0x00, id] ++
        split_bytes (sp.length + 4) ++ [0x55, err] ++ sp)⟩ = true := by
  unfold statusPacketV2_valid
  rw [statusPacketV2_bytes_dropLast2]
  simp

/-- A status packet whose stored CRC was xored with 1 fails the `valid`
check. -/
theorem statusPacketV2_valid_bad (id err : Nat) (sp : List Nat) :
    statusPacketV2_valid ⟨id, sp.length + 4, 0x55, err, sp,
      calc_crc_16 ([0xFF, 0xFF, 0xFD, 0x00, id] ++
        split_bytes (sp.length + 4) ++ [0x55, err] ++ sp) ^^^ 1⟩ = false := by
  unfold statusPacketV2_valid
  rw [statusPacketV2_bytes_dropLast2]
  refine beq_eq_false_iff_ne.mpr ?_
  intro h
  exact xor_one_ne _ h.symm

/-- `parse_after_header_v2` on a status frame followed by further wire
bytes: the frame parses exactly as with nothing behind it and the trailing
bytes are returned unread. -/
theorem parse_after_header_v2_frame_tail (id err L C : Nat) (sp tail : List Nat)
    (hL : L = sp.length + 4) (hlen : L < 65536) (hC : C < 65536) :
    parse_after_header_v2 (id :: (L % 256) :: (L / 256 % 256) :: 0x55 ::
        err :: (sp ++ C % 256 :: C / 256 % 256 :: tail)) =
      if err &&& 0x80 ≠ 0 then .error id
      else .ok (some (if statusPacketV2_valid ⟨id, L, 0x55, err, sp, C⟩ then
          statusPacketV2_remove_stuffing ⟨id, L, 0x55, err, sp, C⟩
        else ⟨id, L, 0x55, err, sp, C⟩), tail) := by
  simp only [parse_after_header_v2]
  have hm : merge_bytes_le [L % 256, L / 256 % 256] = L := by
    simp only [merge_bytes_le]; omega
  rw [hm]
  have hr2 : 0x55 :: err :: (sp ++ C % 256 :: C / 256 % 256 :: tail) =
      (0x55 :: err :: (sp ++ [C % 256, C / 256 % 256])) ++ tail := by
    simp
  rw [hr2]
  have hplen : (0x55 :: err :: (sp ++ [C % 256, C / 256 % 256])).length = L := by
    simp only [List.length_cons, List.length_append, List.length_nil]
    omega
  rw [if_neg (show ¬(((0x55 :: err :: (sp ++ [C % 256, C / 256 % 256])) ++
      tail).length < L) by
    simp only [List.length_append, hplen]; omega)]
  rw [List.take_left' hplen, List.drop_left' hplen]
  simp only [List.headD_cons, List.drop_succ_cons, List.drop_zero,
    List.length_append, List.length_cons, List.length_nil]
  rw [show sp.length + (0 + 1 + 1) - 2 = sp.length from by omega]
  rw [List.take_left, List.drop_left]
  have hm2 : merge_bytes_le [C % 256, C / 256 % 256] = C := by
    simp only [merge_bytes_le]; omega
  rw [hm2]
  have herr : ∀ rx : StatusPacketV2,
      (if statusPacketV2_valid rx then statusPacketV2_remove_stuffing rx
        else rx).error = rx.error := by
    intro rx
    split <;> rfl
  rw [herr]

/-- `receive` on a status frame with stored CRC `C` (not necessarily the
correct one) followed by arbitrary wire bytes. -/
theorem receive_v2_frame_stored (id err C : Nat) (sp tail : List Nat)
    (hlen : sp.length + 4 < 65536) (hC : C < 65536) :
    receive_v2 (([0xFF, 0xFF, 0xFD, 0x00, id] ++ split_bytes (sp.length + 4) ++
        [0x55, err] ++ sp ++ split_bytes C) ++ tail) =
      if err &&& 0x80 ≠ 0 then .error id
      else .ok (some (if statusPacketV2_valid
            ⟨id, sp.length + 4, 0x55, err, sp, C⟩ then
          statusPacketV2_remove_stuffing ⟨id, sp.length + 4, 0x55, err, sp, C⟩
        else ⟨id, sp.length + 4, 0x55, err, sp, C⟩), tail) := by
  have hfh : find_header_v2 (([0xFF, 0xFF, 0xFD, 0x00, id] ++
      split_bytes (sp.length + 4) ++ [0x55, err] ++ sp ++ split_bytes C) ++
        tail) =
      some (id :: ((sp.length + 4) % 256) :: ((sp.length + 4) / 256 % 256) ::
        0x55 :: err :: (sp ++ C % 256 :: C / 256 % 256 :: tail)) := by
    rw [split_bytes_two (sp.length + 4), split_bytes_two C]
    simp only [List.cons_append, List.nil_append, List.append_assoc]
    rw [find_header_v2, if_pos ⟨rfl, rfl⟩]
    rfl
  rw [receive_v2, hfh]
  show parse_after_header_v2 _ = _
  exact parse_after_header_v2_frame_tail id err (sp.length + 4) C sp tail rfl
    hlen hC

/-- `receive` on a compliant device answer (stuffed payload, correct CRC,
alert bit clear) followed by arbitrary wire bytes: the frame is consumed,
the packet validates, and `from_rx` yields the well-behaved `Response`. -/
theorem receive_v2_frame_good (id err : Nat) (p tail : List Nat)
    (hp : p.length ≤ 250) (herr : err &&& 0x80 = 0) :
    ∃ rx : StatusPacketV2,
      receive_v2 (build_rx_v2 id err (add_stuffing p) ++ tail) =
        .ok (some rx, tail) ∧
      statusPacketV2_valid rx = true ∧
      Response.from_rx rx =
        { timeout := some false, corrupted := some false, error := some err,
          dxl_id := some id, data := some (.bytes p) } := by
  have hsp : (add_stuffing p).length ≤ 500 :=
    le_trans (add_stuffing_length_le p) (by omega)
  have hlen : (add_stuffing p).length + 4 < 65536 := by omega
  refine ⟨statusPacketV2_remove_stuffing ⟨id, (add_stuffing p).length + 4,
    0x55, err, add_stuffing p,
    calc_crc_16 ([0xFF, 0xFF, 0xFD, 0x00, id] ++
      split_bytes ((add_stuffing p).length + 4) ++ [0x55, err] ++
        add_stuffing p)⟩, ?_, statusPacketV2_valid_remove_stuffing _, ?_⟩
  · have hfr : build_rx_v2 id err (add_stuffing p) ++ tail =
        ([0xFF, 0xFF, 0xFD, 0x00, id] ++
          split_bytes ((add_stuffing p).length + 4) ++ [0x55, err] ++
          add_stuffing p ++
          split_bytes (calc_crc_16 ([0xFF, 0xFF, 0xFD, 0x00, id] ++
            split_bytes ((add_stuffing p).length + 4) ++ [0x55, err] ++
            add_stuffing p))) ++ tail := rfl
    rw [hfr, receive_v2_frame_stored id err _ (add_stuffing p) tail hlen
      (calc_crc_16_lt _)]
    rw [if_neg (show ¬(err &&& 0x80 ≠ 0) by simp [herr])]
    rw [if_pos (statusPacketV2_valid_good id err (add_stuffing p))]
  · simp [Response.from_rx, statusPacketV2_valid_remove_stuffing,
      statusPacketV2_remove_stuffing_error, statusPacketV2_remove_stuffing_id,
      statusPacketV2_remove_stuffing_params, remove_stuffing_add_stuffing]

/-- `receive` on a corrupted answer (framing intact, CRC check failing): the
raw error byte still decides between `HardwareError` and an invalid packet;
in the latter case the packet is returned without unstuffing. -/
theorem receive_v2_frame_bad_crc (id err : Nat) (sp tail : List Nat)
    (hlen : sp.length + 4 < 65536) :
    ∃ rx : StatusPacketV2,
      receive_v2 (build_rx_v2_bad_crc id err sp ++ tail) =
        (if err &&& 0x80 ≠ 0 then .error id else .ok (some rx, tail)) ∧
      statusPacketV2_valid rx = false := by
  refine ⟨⟨id, sp.length + 4, 0x55, err, sp,
    calc_crc_16 ([0xFF, 0xFF, 0xFD, 0x00, id] ++
      split_bytes (sp.length + 4) ++ [0x55, err] ++ sp) ^^^ 1⟩, ?_,
    statusPacketV2_valid_bad id err sp⟩
  have hfr : build_rx_v2_bad_crc id err sp ++ tail =
      ([0xFF, 0xFF, 0xFD, 0x00, id] ++ split_bytes (sp.length + 4) ++
        [0x55, err] ++ sp ++
        split_bytes (calc_crc_16 ([0xFF, 0xFF, 0xFD, 0x00, id] ++
          split_bytes (sp.length + 4) ++ [0x55, err] ++ sp) ^^^ 1)) ++
        tail := rfl
  rw [hfr, receive_v2_frame_stored id err _ sp tail hlen
    (xor_one_lt_65536 _ (calc_crc_16_lt _))]
  rw [if_neg (show ¬(statusPacketV2_valid ⟨id, sp.length + 4, 0x55, err, sp,
    calc_crc_16 ([0xFF, 0xFF, 0xFD, 0x00, id] ++
      split_bytes (sp.length + 4) ++ [0x55, err] ++ sp) ^^^ 1⟩ = true) by
    rw [statusPacketV2_valid_bad]
    simp)]

/-- One loop step of `stream_response` when `receive` returns a valid packet
and the rest of the loop succeeds. -/
theorem stream_count_step_ok_ok (stream rest rest2 : List Nat)
    (rx : StatusPacketV2) (m : Nat) (rs : List Response)
    (hrec : receive_v2 stream = .ok (some rx, rest))
    (hvalid : statusPacketV2_valid rx = true)
    (htail : stream_response_count rest m = .ok (rs, rest2)) :
    stream_response_count stream (m + 1) =
      .ok (Response.from_rx rx :: rs, rest2) := by
  simp [stream_response_count, hrec, hvalid, htail]

/-- One loop step of `stream_response` when `receive` returns a valid packet
and the rest of the loop raises. -/
theorem stream_count_step_ok_error (stream rest : List Nat)
    (rx : StatusPacketV2) (m i : Nat)
    (hrec : receive_v2 stream = .ok (some rx, rest))
    (hvalid : statusPacketV2_valid rx = true)
    (htail : stream_response_count rest m = .error i) :
    stream_response_count stream (m + 1) = .error i := by
  simp [stream_response_count, hrec, hvalid, htail]

/-- One loop step of `stream_response` on an invalid packet: a corrupted
`Response` is yielded and the loop stops. -/
theorem stream_count_step_invalid (stream rest : List Nat)
    (rx : StatusPacketV2) (m : Nat)
    (hrec : receive_v2 stream = .ok (some rx, rest))
    (hvalid : statusPacketV2_valid rx = false) :
    stream_response_count stream (m + 1) =
      .ok ([{ timeout := some false, corrupted := some true }], rest) := by
  simp [stream_response_count, hrec, hvalid]

/-- One loop step of `stream_response` when `receive` raises
`HardwareError`: the exception propagates. -/
theorem stream_count_step_error (stream : List Nat) (i m : Nat)
    (hrec : receive_v2 stream = .error i) :
    stream_response_count stream (m + 1) = .error i := by
  simp [stream_response_count, hrec]

/-- One loop step of `stream_response` on an exhausted wire: a timeout
`Response` is yielded and the loop stops. -/
theorem stream_count_empty (m : Nat) :
    stream_response_count [] (m + 1) =
      .ok ([{ timeout := some true, corrupted := some false }], []) := rfl

/-- Streaming through the answers of well-behaved devices: each frame is
consumed and contributes its `Response`, and the loop continues on the
remaining bytes with the remaining count. -/
theorem stream_frames_ok_v2 (devs : List (Nat × List Nat)) (tail : List Nat)
    (n : Nat) (hn : devs.length ≤ n) (hb : ∀ d ∈ devs, d.2.length ≤ 250) :
    stream_response_count (frames_ok_v2 devs ++ tail) n =
      match stream_response_count tail (n - devs.length) with
      | .error i => .error i
      | .ok (rs, rest) => .ok (devs.map resp_ok_v2 ++ rs, rest) := by
  induction devs generalizing n tail with
  | nil =>
    simp only [frames_ok_v2, List.map_nil, List.flatten_nil, List.nil_append,
      List.length_nil, Nat.sub_zero]
    rcases h : stream_response_count tail n with i | ⟨rs, rest⟩ <;> simp
  | cons d devs ih =>
    cases n with
    | zero => simp at hn
    | succ m =>
      have hd : d.2.length ≤ 250 := hb d (List.mem_cons_self d devs)
      have hb2 : ∀ x ∈ devs, x.2.length ≤ 250 := fun x hx =>
        hb x (List.mem_cons_of_mem d hx)
      have hn2 : devs.length ≤ m := by
        simp only [List.length_cons] at hn; omega
      obtain ⟨rx, hrec, hvalid, hresp⟩ := receive_v2_frame_good d.1 0 d.2
        (frames_ok_v2 devs ++ tail) hd (by decide)
      have hstream : frames_ok_v2 (d :: devs) ++ tail =
          build_rx_v2 d.1 0 (add_stuffing d.2) ++
            (frames_ok_v2 devs ++ tail) := by
        simp [frames_ok_v2, frame_ok_v2]
      rw [hstream]
      simp only [List.length_cons, Nat.succ_sub_succ, List.map_cons]
      rcases h : stream_response_count tail (m - devs.length) with
        i | ⟨rs, rest⟩
      · have htail : stream_response_count (frames_ok_v2 devs ++ tail) m =
            .error i := by
          rw [ih tail m hn2 hb2, h]
        exact stream_count_step_ok_error _ _ rx m i hrec hvalid htail
      · have htail : stream_response_count (frames_ok_v2 devs ++ tail) m =
            .ok (devs.map resp_ok_v2 ++ rs, rest) := by
          rw [ih tail m hn2 hb2, h]
        rw [stream_count_step_ok_ok _ _ _ rx m _ hrec hvalid htail, hresp]
        rfl

/-- Folding the gather accumulator over the responses of well-behaved
devices appends each decoded (little-endian merged) value. -/
theorem gather_fold_ok (devs : List (Nat × List Nat)) (acc : List Nat) :
    List.foldl
      (fun acc r =>
        if r.ok then acc ++ [resp_data_num (parse_bytes_resp r).data] else acc)
      acc (devs.map resp_ok_v2) =
      acc ++ devs.map (fun d => merge_bytes_le d.2) := by
  induction devs generalizing acc with
  | nil => simp
  | cons d devs ih =>
    simp only [List.map_cons, List.foldl_cons]
    have hstep : (if (resp_ok_v2 d).ok then
        acc ++ [resp_data_num (parse_bytes_resp (resp_ok_v2 d)).data]
      else acc) = acc ++ [merge_bytes_le d.2] := rfl
    rw [hstep, ih]
    simp

/-! ## Claims -/

/-- Claim C1 (counterexample): the claimed round trip fails for Protocol 2 as
stated.  `receive` is a status-packet parser: parsing the wire bytes of the
built instruction packet `(id=1, instruction=2, params=[0x00, 0x01])` yields
the correct id and instruction but reports the first param byte in the error
slot and only `[0x01]` as params, so `(id, instruction, params)` is not
recovered. -/
theorem c1_v2_claim_counterexample :
    (receive_v2 (transmit_wire_v2 1 2 [0x00, 0x01])).toOption.map
        (fun x => x.1.map (fun rx => (rx.packet_id, rx.instruction, rx.error,
          rx.params))) = some (some (1, 2, 0x00, [0x01])) ∧
      ([0x01] : List Nat) ≠ [0x00, 0x01] := by
  decide

/-- Claim C1 (amended): for Protocol 1, parsing the bytes of a built
instruction packet with the status parser recovers `(id, instruction,
params)` exactly, the instruction appearing in the error slot of the status
layout.  For Protocol 2, `receive` parses status frames: building a status
frame over `(id, error, params)` with stuffing applied — the layout of
tests/test_protocol_v2.py `build_rx` — and parsing it with `receive`
recovers `(id, 0x55, error, params)` exactly, including when `params`
contains `FF FF FD` (stuffing round-trips), provided the hardware-alert bit
of `error` is clear. -/
theorem c1_roundtrip :
    (∀ (id instr : Nat) (params : List Nat),
      (id ≤ 253 ∨ id = 0xFE) → instr ≤ 255 → params.length ≤ 250 →
      ∃ rx : StatusPacketV1,
        read_from_v1 (instruction_packet_v1 id instr params) = (some rx, []) ∧
        rx.packet_id = id ∧ rx.error = instr ∧ rx.params = params) ∧
    (∀ (id err : Nat) (params : List Nat),
      (id ≤ 253 ∨ id = 0xFE) → err &&& 0x80 = 0 → params.length ≤ 250 →
      ∃ rx : StatusPacketV2,
        receive_v2 (build_rx_v2 id err (add_stuffing params)) =
          .ok (some rx, []) ∧
        rx.packet_id = id ∧ rx.instruction = 0x55 ∧ rx.error = err ∧
        rx.params = params) := by
  constructor
  · intro id instr params _ _ _
    exact ⟨_, read_from_v1_packet id instr params, rfl, rfl, rfl⟩
  · intro id err params _ herr hplen
    have hlen : (add_stuffing params).length + 4 < 65536 := by
      have := add_stuffing_length_le params
      omega
    have hrec := receive_v2_status_frame id err (add_stuffing params) hlen
    rw [if_neg (by simp [herr])] at hrec
    exact ⟨_, hrec, rfl, rfl, rfl, by
      rw [statusPacketV2_remove_stuffing_params]
      exact remove_stuffing_add_stuffing params⟩

/-- Witness for C1 at concrete inputs, Protocol 2 exercising the stuffing
round trip on params `FF FF FD`. -/
theorem c1_roundtrip_witness :
    (∃ rx : StatusPacketV1,
      read_from_v1 (instruction_packet_v1 1 2 [0x2B, 0x04]) = (some rx, []) ∧
      rx.packet_id = 1 ∧ rx.error = 2 ∧ rx.params = [0x2B, 0x04]) ∧
    (∃ rx : StatusPacketV2,
      receive_v2 (build_rx_v2 1 0 (add_stuffing [0xFF, 0xFF, 0xFD])) =
        .ok (some rx, []) ∧
      rx.packet_id = 1 ∧ rx.instruction = 0x55 ∧ rx.error = 0 ∧
      rx.params = [0xFF, 0xFF, 0xFD]) :=
  ⟨c1_roundtrip.1 1 2 [0x2B, 0x04] (Or.inl (by decide)) (by decide)
      (by decide),
    c1_roundtrip.2 1 0 [0xFF, 0xFF, 0xFD] (Or.inl (by decide)) (by decide)
      (by decide)⟩

/-- Claim C2: the table-driven `calc_crc_16` computes CRC-16/IBM (polynomial
0x8005, initial value 0, no reflection, no final XOR, MSB first) for every
byte string, and the embedded 256-entry table matches the reference table
entry for entry. -/
theorem c2_crc16_matches_reference :
    (∀ s : List Nat, (∀ b ∈ s, b < 256) → calc_crc_16 s = crc16_ref s) ∧
    (∀ i, i < 256 → crc_table.getD i 0 = crc_ref_entry i) :=
  ⟨calc_crc_16_eq_ref, crc_table_matches_ref⟩

/-- Witness for C2 at a concrete byte string and table index. -/
theorem c2_crc16_witness :
    calc_crc_16 [0x01, 0x02, 0x03] = crc16_ref [0x01, 0x02, 0x03] ∧
    crc_table.getD 1 0 = crc_ref_entry 1 :=
  ⟨c2_crc16_matches_reference.1 [0x01, 0x02, 0x03] (by decide),
    c2_crc16_matches_reference.2 1 (by decide)⟩

/-- Claim C3: on the `transmit` path of protocol_v2.py the invariant holds —
every `FF FF FD` window in the stuffed payload is immediately followed by
`FD`, and the wire bytes carry the length field and CRC computed over the
stuffed payload.  On the v2.py `write_packet` path the invariant is broken:
`InstructionPacket.raw` emits the UNSTUFFED params (while its CRC was
computed over the stuffed ones), so for params `FF FF FD` the wire contains
a bare `FF FF FD` not followed by `FD` — the code bug exhibited in the
third conjunct. -/
theorem c3_stuffing_on_wire :
    (∀ (params : List Nat) (i : Nat),
      ((add_stuffing params).drop i).take 3 = [0xFF, 0xFF, 0xFD] →
      ((add_stuffing params).drop i).take 4 = [0xFF, 0xFF, 0xFD, 0xFD]) ∧
    (∀ (id instr : Nat) (params : List Nat),
      transmit_wire_v2 id instr params =
        ([0xFF, 0xFF, 0xFD, 0x00, id] ++
          split_bytes ((add_stuffing params).length + 3) ++ [instr] ++
          add_stuffing params) ++
        split_bytes (calc_crc_16 ([0xFF, 0xFF, 0xFD, 0x00, id] ++
          split_bytes ((add_stuffing params).length + 3) ++ [instr] ++
          add_stuffing params))) ∧
    (((instruction_raw_v2py 1 3 [0xFF, 0xFF, 0xFD]).drop 8).take 3 =
        [0xFF, 0xFF, 0xFD] ∧
      ((instruction_raw_v2py 1 3 [0xFF, 0xFF, 0xFD]).drop 8).take 4 ≠
        [0xFF, 0xFF, 0xFD, 0xFD]) := by
  refine ⟨add_stuffing_no_bare_header, ?_, by decide⟩
  intro id instr params
  simp only [transmit_wire_v2, instruction_packet_v2, List.append_assoc]

/-- Witness for C3's universally quantified parts at concrete inputs. -/
theorem c3_stuffing_on_wire_witness :
    ((add_stuffing [0xFF, 0xFF, 0xFD]).drop 0).take 4 =
      [0xFF, 0xFF, 0xFD, 0xFD] :=
  c3_stuffing_on_wire.1 [0xFF, 0xFF, 0xFD] 0 (by decide)

/-- Claim C4: for every received Protocol 2 status frame, an error byte with
bit 0x80 set makes `receive` raise `HardwareError` carrying the id of the
responding device, and an error byte with bit 0x80 clear (any lower bits)
never raises it. -/
theorem c4_hardware_alert (id err : Nat) (params : List Nat)
    (hlen : params.length + 4 < 65536) :
    (err &&& 0x80 ≠ 0 →
      receive_v2 (build_rx_v2 id err params) = .error id) ∧
    (err &&& 0x80 = 0 →
      ∃ (rx : StatusPacketV2) (rest : List Nat),
        receive_v2 (build_rx_v2 id err params) = .ok (some rx, rest) ∧
        rx.packet_id = id ∧ rx.error = err) := by
  constructor
  · intro h
    rw [receive_v2_status_frame id err params hlen, if_pos h]
  · intro h
    have hrec := receive_v2_status_frame id err params hlen
    rw [if_neg (by simp [h])] at hrec
    exact ⟨_, _, hrec, rfl, rfl⟩

/-- Witness for C4: error byte 0x82 raises with id 3; error byte 0x05 (a
device error without the alert bit) does not raise. -/
theorem c4_hardware_alert_witness :
    receive_v2 (build_rx_v2 3 0x82 []) = .error 3 ∧
    (∃ (rx : StatusPacketV2) (rest : List Nat),
      receive_v2 (build_rx_v2 3 0x05 []) = .ok (some rx, rest) ∧
      rx.packet_id = 3 ∧ rx.error = 0x05) :=
  ⟨(c4_hardware_alert 3 0x82 [] (by decide)).1 (by decide),
    (c4_hardware_alert 3 0x05 [] (by decide)).2 (by decide)⟩

/-- Claim C5 (counterexample): an erroring device answer mid-stream does NOT
stop the gather.  With three addressed devices where the second answers with
error byte 0x01 and the third answers cleanly, `_sync_read` skips the
erroring answer, still decodes the third, and returns an `ok` response whose
data contains the first and third values — not the partial aggregate up to
the failure together with a terminal (not-ok) response. -/
theorem c5_claim_counterexample :
    (sync_read_gather (build_rx_v2 1 0 [0xA6, 0x01, 0x01, 0x01] ++
        build_rx_v2 2 1 [0xB6, 0x01, 0x01, 0x01] ++
        build_rx_v2 3 0 [0xC6, 0x01, 0x01, 0x01]) 3).toOption.map
      (fun r => (r.ok, r.data)) =
    some (true, some (.numList [0x010101A6, 0x010101C6])) := by
  decide

/-- Claim C5 (amended): (1) when the answer of a device mid-stream is
MISSING — any number of compliant answers followed by an exhausted wire,
fewer than the `n` addressed devices — the gather stops without an
exception and returns the partial aggregate of the values decoded so far
inside the terminal timeout response (`ok = false`, `timeout = true`); the
S4 scenario (3 addressed, 2 responding) is the instance `devs.length = 2`,
`n = 3`.  (2) When a mid-stream answer is CORRUPT (framing intact, CRC
check failing) and its raw error byte has the 0x80 alert bit CLEAR, the
gather likewise stops without an exception, returning the partial
aggregate inside the terminal corrupted response (`ok = false`,
`corrupted = true`), whatever bytes follow on the wire.  (3) If the
corrupt answer's raw error byte has the 0x80 bit SET, `receive` raises
`HardwareError(packet_id)` out of the gather instead and the caller gets
no partial aggregate.  (4) A compliant answer that merely reports a
non-zero device error (alert bit clear) does not stop the gather: its
value is skipped and the remaining device is still read, the result still
`ok`. -/
theorem c5_partial_gather :
    (∀ (devs : List (Nat × List Nat)) (n : Nat),
      devs.length < n → (∀ d ∈ devs, d.2.length ≤ 250) →
      sync_read_gather (frames_ok_v2 devs) n =
        .ok { timeout := some true, corrupted := some false, error := none,
              dxl_id := none,
              data := some (.numList
                (devs.map (fun d => merge_bytes_le d.2))) }) ∧
    (∀ (devs : List (Nat × List Nat)) (cid cerr : Nat)
        (csp tail : List Nat) (n : Nat),
      devs.length < n → (∀ d ∈ devs, d.2.length ≤ 250) →
      csp.length + 4 < 65536 → cerr &&& 0x80 = 0 →
      sync_read_gather
          (frames_ok_v2 devs ++ build_rx_v2_bad_crc cid cerr csp ++ tail) n =
        .ok { timeout := some false, corrupted := some true, error := none,
              dxl_id := none,
              data := some (.numList
                (devs.map (fun d => merge_bytes_le d.2))) }) ∧
    (∀ (devs : List (Nat × List Nat)) (cid cerr : Nat)
        (csp tail : List Nat) (n : Nat),
      devs.length < n → (∀ d ∈ devs, d.2.length ≤ 250) →
      csp.length + 4 < 65536 → cerr &&& 0x80 ≠ 0 →
      sync_read_gather
          (frames_ok_v2 devs ++ build_rx_v2_bad_crc cid cerr csp ++ tail) n =
        .error cid) ∧
    (∀ (devs : List (Nat × List Nat)) (eid eerr : Nat) (ep : List Nat)
        (d2 : Nat × List Nat),
      (∀ d ∈ devs, d.2.length ≤ 250) → ep.length ≤ 250 →
      d2.2.length ≤ 250 → eerr &&& 0x80 = 0 → eerr ≠ 0 →
      sync_read_gather
          (frames_ok_v2 devs ++ build_rx_v2 eid eerr (add_stuffing ep) ++
            frame_ok_v2 d2) (devs.length + 2) =
        .ok { timeout := some false, corrupted := some false,
              error := some 0, dxl_id := some d2.1,
              data := some (.numList
                (devs.map (fun d => merge_bytes_le d.2) ++
                  [merge_bytes_le d2.2])) }) := by
  refine ⟨?_, ?_, ?_, ?_⟩
  · intro devs n hn hb
    obtain ⟨m, hm⟩ : ∃ m, n - devs.length = m + 1 :=
      ⟨n - devs.length - 1, by omega⟩
    have hstream : stream_response_count (frames_ok_v2 devs) n =
        .ok (devs.map resp_ok_v2 ++
          [{ timeout := some true, corrupted := some false }], []) := by
      rw [show frames_ok_v2 devs = frames_ok_v2 devs ++ [] from by simp]
      rw [stream_frames_ok_v2 devs [] n (le_of_lt hn) hb, hm,
        stream_count_empty m]
    simp only [sync_read_gather, hstream]
    rw [List.getLast?_concat, List.foldl_append, gather_fold_ok devs []]
    simp [Response.ok, truthy]
  · intro devs cid cerr csp tail n hn hb hcsp herrbit
    obtain ⟨m, hm⟩ : ∃ m, n - devs.length = m + 1 :=
      ⟨n - devs.length - 1, by omega⟩
    obtain ⟨rxc, hrecC, hvalidC⟩ :=
      receive_v2_frame_bad_crc cid cerr csp tail hcsp
    rw [if_neg (show ¬(cerr &&& 0x80 ≠ 0) by simp [herrbit])] at hrecC
    have hstream : stream_response_count (frames_ok_v2 devs ++
        (build_rx_v2_bad_crc cid cerr csp ++ tail)) n =
        .ok (devs.map resp_ok_v2 ++
          [{ timeout := some false, corrupted := some true }], tail) := by
      rw [stream_frames_ok_v2 devs _ n (le_of_lt hn) hb, hm,
        stream_count_step_invalid _ _ rxc m hrecC hvalidC]
    rw [List.append_assoc]
    simp only [sync_read_gather, hstream]
    rw [List.getLast?_concat, List.foldl_append, gather_fold_ok devs []]
    simp [Response.ok, truthy]
  · intro devs cid cerr csp tail n hn hb hcsp herrbit
    obtain ⟨m, hm⟩ : ∃ m, n - devs.length = m + 1 :=
      ⟨n - devs.length - 1, by omega⟩
    obtain ⟨rxc, hrecC, hvalidC⟩ :=
      receive_v2_frame_bad_crc cid cerr csp tail hcsp
    rw [if_pos herrbit] at hrecC
    have hstream : stream_response_count (frames_ok_v2 devs ++
        (build_rx_v2_bad_crc cid cerr csp ++ tail)) n = .error cid := by
      rw [stream_frames_ok_v2 devs _ n (le_of_lt hn) hb, hm,
        stream_count_step_error _ cid m hrecC]
    rw [List.append_assoc]
    simp [sync_read_gather, hstream]
  · intro devs eid eerr ep d2 hb hep hd2 herrbit heerr
    obtain ⟨rx2, hrec2, hvalid2, hresp2⟩ :=
      receive_v2_frame_good d2.1 0 d2.2 [] hd2 (by decide)
    rw [List.append_nil] at hrec2
    obtain ⟨rxe, hrecE, hvalidE, hrespE⟩ :=
      receive_v2_frame_good eid eerr ep (frame_ok_v2 d2) hep herrbit
    have hs2 : stream_response_count (frame_ok_v2 d2) 1 =
        .ok ([Response.from_rx rx2], []) :=
      stream_count_step_ok_ok (build_rx_v2 d2.1 0 (add_stuffing d2.2)) [] []
        rx2 0 [] hrec2 hvalid2 rfl
    have hsE : stream_response_count
        (build_rx_v2 eid eerr (add_stuffing ep) ++ frame_ok_v2 d2) 2 =
        .ok ([Response.from_rx rxe, Response.from_rx rx2], []) :=
      stream_count_step_ok_ok _ _ _ rxe 1 _ hrecE hvalidE hs2
    have hokE : Response.ok
        { timeout := some false, corrupted := some false,
          error := some eerr, dxl_id := some eid,
          data := some (.bytes ep) } = false := by
      simp [Response.ok, truthy, heerr]
    have hstream : stream_response_count (frames_ok_v2 devs ++
        (build_rx_v2 eid eerr (add_stuffing ep) ++ frame_ok_v2 d2))
        (devs.length + 2) =
        .ok (devs.map resp_ok_v2 ++
          [Response.from_rx rxe, Response.from_rx rx2], []) := by
      rw [stream_frames_ok_v2 devs _ (devs.length + 2) (by omega) hb]
      rw [show devs.length + 2 - devs.length = 2 from by omega, hsE]
    rw [List.append_assoc]
    simp only [sync_read_gather, hstream, hrespE, hresp2]
    rw [List.append_cons]
    simp only [List.foldl_append, List.getLast?_concat]
    rw [gather_fold_ok devs []]
    simp [hokE, heerr, Response.ok, truthy, parse_bytes_resp, resp_data_num,
      resp_data_bytes]

/-- Witness for C5: each clause at concrete inputs.  (1) is S4: devices 1
and 2 answer, a third is addressed, the result carries both decoded values
inside the timeout response.  (2) device 2's answer is corrupted (CRC
xored) with error byte 0, so the gather stops with the corrupted response
carrying only device 1's value, even though device 3's valid answer
follows on the wire.  (3) the same corrupted answer with error byte 0x84
(alert bit set) raises `HardwareError(2)`.  (4) device 2 answers validly
with device error 0x01: its value is skipped and device 3 is still
read. -/
theorem c5_partial_gather_witness :
    sync_read_gather (frames_ok_v2 [(1, [0xA6, 0x01, 0x01, 0x01]),
        (2, [0xB6, 0x01, 0x01, 0x01])]) 3 =
      .ok { timeout := some true, corrupted := some false, error := none,
            dxl_id := none,
            data := some (.numList [0x010101A6, 0x010101B6]) } ∧
    sync_read_gather (frames_ok_v2 [(1, [0xA6, 0x01, 0x01, 0x01])] ++
        build_rx_v2_bad_crc 2 0 [0xB6, 0x01, 0x01, 0x01] ++
        frame_ok_v2 (3, [0xC6, 0x01, 0x01, 0x01])) 3 =
      .ok { timeout := some false, corrupted := some true, error := none,
            dxl_id := none, data := some (.numList [0x010101A6]) } ∧
    sync_read_gather (frames_ok_v2 [(1, [0xA6, 0x01, 0x01, 0x01])] ++
        build_rx_v2_bad_crc 2 0x84 [0xB6, 0x01, 0x01, 0x01] ++ []) 3 =
      .error 2 ∧
    sync_read_gather (frames_ok_v2 [(1, [0xA6, 0x01, 0x01, 0x01])] ++
        build_rx_v2 2 0x01 (add_stuffing [0xB6, 0x01, 0x01, 0x01]) ++
        frame_ok_v2 (3, [0xC6, 0x01, 0x01, 0x01])) 3 =
      .ok { timeout := some false, corrupted := some false, error := some 0,
            dxl_id := some 3,
            data := some (.numList [0x010101A6, 0x010101C6]) } := by
  refine ⟨?_, ?_, ?_, ?_⟩
  · exact c5_partial_gather.1
      [(1, [0xA6, 0x01, 0x01, 0x01]), (2, [0xB6, 0x01, 0x01, 0x01])] 3
      (by decide) (by decide)
  · exact c5_partial_gather.2.1 [(1, [0xA6, 0x01, 0x01, 0x01])] 2 0
      [0xB6, 0x01, 0x01, 0x01] (frame_ok_v2 (3, [0xC6, 0x01, 0x01, 0x01])) 3
      (by decide) (by decide) (by decide) (by decide)
  · exact c5_partial_gather.2.2.1 [(1, [0xA6, 0x01, 0x01, 0x01])] 2 0x84
      [0xB6, 0x01, 0x01, 0x01] [] 3
      (by decide) (by decide) (by decide) (by decide)
  · exact c5_partial_gather.2.2.2 [(1, [0xA6, 0x01, 0x01, 0x01])] 2 0x01
      [0xB6, 0x01, 0x01, 0x01] (3, [0xC6, 0x01, 0x01, 0x01])
      (by decide) (by decide) (by decide) (by decide) (by decide)

/-- Claim C6: `DynamixelSerialV2.sync_write` and `bulk_write` never read
from the port — the pending receive bytes are untouched for every input.
The v1.py `MotorBus.sync_write` (cited by the claim) violates this: it calls
`read_packet`, and the third conjunct shows a pending byte being consumed. -/
theorem c6_sync_bulk_write_no_read :
    (∀ (st : SerialState) (address length : Nat) (pairs : List (Nat × Nat)),
      (sync_write_v2 st address length pairs).rx = st.rx) ∧
    (∀ (st : SerialState) (entries : List (Nat × Nat × Nat × Nat)),
      (bulk_write_v2 st entries).rx = st.rx) ∧
    ((motorbus_sync_write_v1py ⟨[0x78], []⟩ 0x1E 4 [(1, 0x10)]).2.rx = [] ∧
      ([0x78] : List Nat) ≠ []) :=
  ⟨fun _ _ _ _ => rfl, fun _ _ => rfl, by decide⟩

/-- Claim C7 (counterexample): the transmitted bytes of
`read(id=1, address=0x2B, length=4)` are not `FF FF 01 04 02 2B 04 CA`: the
checksum byte is `C9 = ~(01+04+02+2B+04) & FF`, not `CA`. -/
theorem c7_claim_counterexample :
    dxl_read_v1_tx 1 0x2B 4 ≠
      [0xFF, 0xFF, 0x01, 0x04, 0x02, 0x2B, 0x04, 0xCA] := by
  decide

/-- Claim C7 (amended): `read(id=1, address=0x2B, length=4)` transmits
exactly `FF FF 01 04 02 2B 04 C9`, and on receiving
`FF FF 01 06 00 20 01 02 03 D2` returns the successful big-endian merge
`0x20010203` of the four param bytes. -/
theorem c7_v1_read_scenario :
    dxl_read_v1_tx 1 0x2B 4 =
      [0xFF, 0xFF, 0x01, 0x04, 0x02, 0x2B, 0x04, 0xC9] ∧
    dxl_read_v1 [0xFF, 0xFF, 0x01, 0x06, 0x00, 0x20, 0x01, 0x02, 0x03, 0xD2] =
      some 0x20010203 := by
  constructor
  · decide
  · decide

/-- Claim C8: `Response.ok` is true exactly when `timeout` is not set,
`corrupted` is not set (Python truthiness: `None` and `False` are both "not
set"), and the `error` field is absent or equal to 0. -/
theorem c8_response_ok_characterization (r : Response) :
    r.ok = true ↔
      r.timeout ≠ some true ∧ r.corrupted ≠ some true ∧
        (r.error = none ∨ r.error = some 0) := by
  obtain ⟨t, c, e, i, d⟩ := r
  simp only [Response.ok]
  rcases e with _ | e <;>
    rcases t with _ | t <;>
    rcases c with _ | c <;>
    first
      | (cases t <;> cases c <;> simp [truthy])
      | (cases t <;> simp [truthy])
      | (cases c <;> simp [truthy])
      | simp [truthy]

/-- Witness for C8 at a concrete `Response`. -/
theorem c8_response_ok_witness :
    Response.ok ⟨some false, some false, some 0, none, none⟩ = true :=
  (c8_response_ok_characterization ⟨some false, some false, some 0, none,
    none⟩).mpr ⟨by decide, by decide, Or.inr rfl⟩

/-- Claim C10: `MotorBus.ping` in v1.py does NOT return a `Response` for
every framed status packet: once a packet frames (whether its checksum
validates or not), every remaining `Response(...)` construction passes the
keyword `valid`, which is not a field of the `Response` dataclass, so the
call raises `TypeError`.  The first stream is a valid ping status (id 1,
error 0), the second the same frame with a non-zero error byte. -/
theorem c10_ping_typeerror :
    except_error (motorbus_ping_v1py [0xFF, 0xFF, 0x01, 0x02, 0x00, 0xFC]) =
      some "TypeError" ∧
    except_error (motorbus_ping_v1py [0xFF, 0xFF, 0x01, 0x02, 0x01, 0xFC]) =
      some "TypeError" ∧
    response_field_names.contains "valid" = false := by
  refine ⟨?_, ?_, ?_⟩ <;> decide
